import Mathlib

/-!
Shallow embedding of the button-showcase application (src/src/app.js and
src/src/icons/index.js): the SVG loader (preload cache with fallback,
color-directive normalization, DOM injection), the WCAG contrast
calculator, the contrast label-update pass, and the keyboard/pointer
interaction handlers.  DOM elements are modelled as explicit records,
event handlers as pure functions on them, and the icon cache as an
association list with `Map.set` semantics.
-/

/- ==============================================================
   Icon cache (SVGLoader.cache, a JS `Map`), src/src/app.js line 21
   ============================================================== -/

/-- One `Map.set` step on the icon cache, represented as an association
list: any existing entry for `k` is removed and the new binding appended,
so each key keeps a single entry (extensionally the same key-to-value
mapping as the JS `Map`). -/
def mapSet (c : List (String × String)) (k v : String) : List (String × String) :=
  c.filter (fun e => e.1 ≠ k) ++ [(k, v)]

/-- `cache.get k` on the association-list cache. -/
def lookupKey (c : List (String × String)) (k : String) : Option String :=
  (c.find? (fun e => e.1 = k)).map (fun e => e.2)

/-- Number of entries the cache holds for key `k`. -/
def countKey (c : List (String × String)) (k : String) : Nat :=
  (c.filter (fun e => e.1 = k)).length

/-- Cache value stored for one identifier by `preloadAllIcons`
(src/src/app.js lines 38-59): the fetched markup on success, the fallback
fetch's text when the primary attempt fails, and the empty string when the
fallback attempt fails too.  `prim`/`fb` are the outcomes of the two fetch
attempts for this identifier; `none` covers both a non-ok response and a
transport error, which the code handles identically (for the primary via
throw-and-catch, for the fallback via the `ok` test and the catch). -/
def loadOneIcon (prim fb : Option String) : String :=
  prim.getD (fb.getD "")

/-- `SVGLoader.preloadAllIcons` (src/src/app.js lines 37-63): every catalog
key gets its `loadOneIcon` value `Map.set` into the initially empty cache.
The concurrent fetches write to distinct keys, so the final cache does not
depend on their completion order; folding in catalog order realizes it.
The function is total in the fetch outcomes `prim`/`fb`: the aggregate
never rejects, whatever the individual attempts do. -/
def preloadAllIcons (keys : List String) (prim fb : String → Option String) :
    List (String × String) :=
  keys.foldl (fun c k => mapSet c k (loadOneIcon (prim k) (fb k))) []

/- ==============================================================
   Arrow-key showcase navigation, src/src/app.js lines 548-579
   ============================================================== -/

/-- The `for (let i = 1; i < allButtons.length; i++)` search shared by the
ArrowDown / ArrowUp cases: starting at offset `j` with `fuel` iterations
left, return the first index `f j` whose showcase (an `Option Nat`: the
identity of the closest `.showcase` ancestor, `none` when there is none,
mirroring `closest('.showcase')` being `null`) differs from `cur`. -/
def searchFrom (sc : List (Option Nat)) (cur : Option Nat) (f : Nat → Nat) :
    Nat → Nat → Option Nat
  | _, 0 => none
  | j, fuel + 1 =>
    if sc.getD (f j) none ≠ cur then some (f j) else searchFrom sc cur f (j + 1) fuel

/-- The ArrowDown case (src/src/app.js lines 548-562): scan forward
circularly from the focused index `i` for the first visible button in a
different showcase. -/
def arrowDownTarget (sc : List (Option Nat)) (i : Nat) : Option Nat :=
  searchFrom sc (sc.getD i none) (fun j => (i + j) % sc.length) 1 (sc.length - 1)

/-- The backward scan of the ArrowUp case (src/src/app.js lines 564-572):
the first index, going backward circularly from `i`, in a different
showcase. -/
def arrowUpFound (sc : List (Option Nat)) (i : Nat) : Option Nat :=
  searchFrom sc (sc.getD i none) (fun j => (i + sc.length - j) % sc.length) 1
    (sc.length - 1)

/-- Index of the first list element satisfying `p`
(`allButtons.filter(...)[0]` in index form). -/
def firstIdxWhere (p : Option Nat → Bool) : List (Option Nat) → Option Nat
  | [] => none
  | g :: gs => if p g then some 0 else (firstIdxWhere p gs).map (· + 1)

/-- The full ArrowUp case (src/src/app.js lines 564-579): find the nearest
preceding button in a different showcase, then focus the first button (in
list order) of that showcase. -/
def arrowUpTarget (sc : List (Option Nat)) (i : Nat) : Option Nat :=
  match arrowUpFound sc i with
  | none => none
  | some p => firstIdxWhere (fun g => g = sc.getD p none) sc

/- ==============================================================
   Click dispatch on a button, src/src/app.js lines 426-460
   ============================================================== -/

/-- The attribute/class state of one `.button` element that the click
handlers read and write.  `ariaDisabled` models
`aria-disabled="true"`; `isToggleBtn` models
`dataset.isToggleButton === 'true'`. -/
structure BtnState where
  classes : List String
  ariaPressed : Option String
  ariaDisabled : Bool
  isToggleBtn : Bool
deriving DecidableEq

/-- Flags a dispatched click event can accumulate. -/
structure ClickFlags where
  defaultPrevented : Bool
  propagationStopped : Bool
  immediateStopped : Bool
deriving DecidableEq

/-- The document-level bubble-phase click handler (src/src/app.js lines
426-443): a click resolving to a non-disabled toggle button flips its
`pressed` class and `aria-pressed` attribute. -/
def toggleClickUpdate (b : BtnState) : BtnState :=
  if b.ariaDisabled then b
  else if ¬b.isToggleBtn then b
  else if b.classes.contains "pressed" then
    { b with classes := b.classes.filter (fun c => c ≠ "pressed"),
             ariaPressed := some "false" }
  else
    { b with classes := b.classes ++ ["pressed"], ariaPressed := some "true" }

/-- Dispatch of one click event whose target lies inside the button `b`,
through the two document-level click listeners of src/src/app.js: the
capture-phase `blockDisabledButtonEvents` (lines 449-460, registered with
`capture: true`, so it runs first) and the bubble-phase toggle handler
(lines 426-443).  Per DOM dispatch, `stopPropagation` (and
`stopImmediatePropagation`) raised during the capture visit of `document`
prevents the bubble visit, so the toggle handler never observes the event.
Returns the final button state, the event flags, and the trace of handlers
that ran. -/
def dispatchClickOnButton (b : BtnState) : BtnState × ClickFlags × List String :=
  if b.ariaDisabled then
    (b, ⟨true, true, true⟩, ["blockDisabledButtonEvents"])
  else
    (toggleClickUpdate b, ⟨false, false, false⟩,
      ["blockDisabledButtonEvents", "toggleClickHandler"])

/- ==============================================================
   Arrow-key handler, no-focus branch, src/src/app.js lines 508-519
   ============================================================== -/

/-- One `.button` element as the navigation handler sees it: `hidden` is
`offsetParent === null`. -/
structure NavBtn where
  hidden : Bool
deriving DecidableEq

/-- The key list guarding the navigation handler (src/src/app.js line 510). -/
def isArrowNavKey (key : String) : Bool :=
  key = "ArrowDown" || key = "ArrowUp" || key = "ArrowRight" || key = "ArrowLeft" ||
  key = "Home" || key = "End"

/-- Outcome of the navigation handler: which button index (into the full
document-order button list) receives focus, and whether relative
navigation ran. -/
structure NavOutcome where
  focusTarget : Option Nat
  relativeNav : Bool
deriving DecidableEq

/-- The no-focus branch of the arrow-navigation keydown handler
(src/src/app.js lines 508-519), for the case where `document.activeElement`
is not a `.button`: on an arrow/Home/End key it focuses
`document.querySelector('.button')`, the first button in document order
with no visibility filter, and returns without relative navigation. -/
def navKeydownNoFocus (buttons : List NavBtn) (key : String) : NavOutcome :=
  if isArrowNavKey key then
    { focusTarget := if buttons.isEmpty then none else some 0, relativeNav := false }
  else
    { focusTarget := none, relativeNav := false }

/-- Modelled from the spec: the claim's reference point "the first visible
(non-hidden) button" — the least index of a button whose `offsetParent`
is not null.  (The code itself has no such filter in the no-focus branch;
this definition exists to compare the code against the claim.) -/
def firstVisibleIdxSpec : List NavBtn → Option Nat
  | [] => none
  | b :: bs =>
    if b.hidden then (firstVisibleIdxSpec bs).map (· + 1) else some 0

/- ==============================================================
   Color parsing: getRGB inside StyleManager.calculateContrast,
   src/src/app.js lines 147-174
   ============================================================== -/

/-- JS regex `\s` and `parseInt` leading-whitespace class, approximated by
Unicode whitespace. -/
def isJsSpace (c : Char) : Bool := c.isWhitespace

def isJsDigit (c : Char) : Bool := c.isDigit

/-- Numeric value of a decimal digit character. -/
def digitVal (c : Char) : Nat := c.toNat - 48

/-- Value of a nonempty decimal-digit string. -/
def digitsVal (l : List Char) : Nat :=
  l.foldl (fun acc c => 10 * acc + digitVal c) 0

/-- `Math.round(parseFloat(m))` for a regex capture `\d+(\.\d+)?`: the
operand is a nonnegative exact decimal, so rounding half away from zero
adds 1 exactly when the first fractional digit is 5 or more. -/
def roundDecimal (intPart : Nat) (fracDigits : List Char) : Nat :=
  match fracDigits with
  | [] => intPart
  | c :: _ => if 5 ≤ digitVal c then intPart + 1 else intPart

/-- Parse `\d+(\.\d+)?` at the head of `l` and round: returns the rounded
value and the rest.  The optional fraction is consumed only when at least
one digit follows the dot, as regex backtracking does. -/
def parseNumAt (l : List Char) : Option (Nat × List Char) :=
  let ds := l.takeWhile isJsDigit
  let rest := l.dropWhile isJsDigit
  if ds.isEmpty then none
  else
    match rest with
    | '.' :: r2 =>
      let fs := r2.takeWhile isJsDigit
      if fs.isEmpty then some (digitsVal ds, rest)
      else some (roundDecimal (digitsVal ds) fs, r2.dropWhile isJsDigit)
    | _ => some (digitsVal ds, rest)

/-- Try to match the regex
`rgba?\(\s*(\d+(?:\.\d+)?)\s*,\s*(\d+(?:\.\d+)?)\s*,\s*(\d+(?:\.\d+)?)`
of src/src/app.js line 153 at the head of `l` (case-sensitive — the regex
has no `i` flag — and with no closing parenthesis required). -/
def tryRgbaAt (l : List Char) : Option (Nat × Nat × Nat) :=
  match l with
  | 'r' :: 'g' :: 'b' :: rest =>
    let afterParen : Option (List Char) :=
      match rest with
      | 'a' :: '(' :: r => some r
      | '(' :: r => some r
      | _ => none
    match afterParen with
    | none => none
    | some r0 =>
      match parseNumAt (r0.dropWhile isJsSpace) with
      | none => none
      | some (n1, r1) =>
        match r1.dropWhile isJsSpace with
        | ',' :: r2 =>
          match parseNumAt (r2.dropWhile isJsSpace) with
          | none => none
          | some (n2, r3) =>
            match r3.dropWhile isJsSpace with
            | ',' :: r4 =>
              match parseNumAt (r4.dropWhile isJsSpace) with
              | none => none
              | some (n3, _) => some (n1, n2, n3)
            | _ => none
        | _ => none
  | _ => none

/-- `color.match(/rgba?\(.../)`: an unanchored search, trying each start
position from the left. -/
def searchRgba : List Char → Option (Nat × Nat × Nat)
  | [] => none
  | c :: rest =>
    match tryRgbaAt (c :: rest) with
    | some v => some v
    | none => searchRgba rest

def isHexDigitCh (c : Char) : Bool :=
  c.isDigit || ('a' ≤ c && c ≤ 'f') || ('A' ≤ c && c ≤ 'F')

def hexVal (c : Char) : Nat :=
  if c.isDigit then c.toNat - 48
  else if 'a' ≤ c && c ≤ 'f' then c.toNat - 87
  else c.toNat - 55

/-- `parseInt(s, 16)` on a short string (here the two characters
`hex.substr(i, 2)`): skip leading whitespace, take an optional sign, strip
an optional `0x`/`0X` prefix, then read the longest hex-digit prefix;
`none` models `NaN` (no digits found). -/
def jsParseIntHex (l : List Char) : Option Int :=
  let l1 := l.dropWhile isJsSpace
  let signed : Int × List Char :=
    match l1 with
    | '+' :: t => (1, t)
    | '-' :: t => (-1, t)
    | t => (1, t)
  let body : List Char :=
    match signed.2 with
    | '0' :: 'x' :: t2 => t2
    | '0' :: 'X' :: t2 => t2
    | t => t
  let ds := body.takeWhile isHexDigitCh
  if ds.isEmpty then none
  else some (signed.1 * (ds.foldl (fun acc c => 16 * acc + hexVal c) 0 : Nat))

/-- `getRGB` inside `StyleManager.calculateContrast` (src/src/app.js lines
148-174).  `Except.error` is the thrown `Error` (empty or `transparent`
input, or neither pattern applies).  Channels are `Option Int`: `none` is
a `NaN` channel, which the hex branch can produce via `parseInt` without
throwing.  `color.replace('#','')` removes the first `#`, which after the
`startsWith('#')` test is the head character; the `hex.length >= 6` test
and `substr` reads become the six-character pattern. -/
def getRGB (color : String) :
    Except String (Option Int × Option Int × Option Int) :=
  if color = "" || color = "transparent" then
    Except.error "유효하지 않은 색상 값입니다"
  else
    match searchRgba color.data with
    | some (r, g, b) => Except.ok (some (r : Int), some (g : Int), some (b : Int))
    | none =>
      match color.data with
      | '#' :: c1 :: c2 :: c3 :: c4 :: c5 :: c6 :: _ =>
        Except.ok (jsParseIntHex [c1, c2], jsParseIntHex [c3, c4],
          jsParseIntHex [c5, c6])
      | _ => Except.error ("색상 파싱 실패: " ++ color)

/- ==============================================================
   WCAG luminance and contrast: StyleManager.calculateContrastRGBA,
   src/src/app.js lines 128-145
   ============================================================== -/

/-- One channel of `getLuminance` (src/src/app.js lines 129-135): divide
by 255, then map linearly below the 0.03928 threshold and through the
2.4-power otherwise. -/
noncomputable def channelLum (c : ℝ) : ℝ :=
  if c / 255 ≤ 0.03928 then c / 255 / 12.92
  else ((c / 255 + 0.055) / 1.055) ^ (2.4 : ℝ)

/-- `getLuminance` (src/src/app.js lines 129-135). -/
noncomputable def getLuminance (r g b : ℝ) : ℝ :=
  0.2126 * channelLum r + 0.7152 * channelLum g + 0.0722 * channelLum b

/-- `StyleManager.calculateContrastRGBA` (src/src/app.js lines 128-145). -/
noncomputable def calculateContrastRGBA (r1 g1 b1 r2 g2 b2 : ℝ) : ℝ :=
  (max (getLuminance r1 g1 b1) (getLuminance r2 g2 b2) + 0.05) /
    (min (getLuminance r1 g1 b1) (getLuminance r2 g2 b2) + 0.05)

/-- `StyleManager.calculateContrast` (src/src/app.js lines 147-180): parse
both colors (a thrown parse error aborts), then hand the rounded channels
to `calculateContrastRGBA`.  A `NaN` channel contaminates the ratio, so it
becomes `Except.ok none`. -/
noncomputable def calculateContrast (c1 c2 : String) : Except String (Option ℝ) :=
  match getRGB c1 with
  | Except.error e => Except.error e
  | Except.ok (r1, g1, b1) =>
    match getRGB c2 with
    | Except.error e => Except.error e
    | Except.ok (r2, g2, b2) =>
      match r1, g1, b1, r2, g2, b2 with
      | some x1, some y1, some z1, some x2, some y2, some z2 =>
        Except.ok (some (calculateContrastRGBA (x1 : ℝ) (y1 : ℝ) (z1 : ℝ)
          (x2 : ℝ) (y2 : ℝ) (z2 : ℝ)))
      | _, _, _, _, _, _ => Except.ok none

/- ==============================================================
   Color-directive normalization: SVGLoader.convertToCurrentColor,
   src/src/app.js lines 27-35
   ============================================================== -/

/-- The double-quote character. -/
def dqChar : Char := Char.ofNat 34

/-- The single-quote character. -/
def sqChar : Char := Char.ofNat 39

/-- The closing-brace character of the `[^;}\s]` class. -/
def rbraceChar : Char := Char.ofNat 125

/-- The attribute/property name `fill` as characters. -/
def fillP : List Char := ['f', 'i', 'l', 'l']

/-- The attribute/property name `stroke` as characters. -/
def strokeP : List Char := ['s', 't', 'r', 'o', 'k', 'e']

/-- Case-insensitive character comparison (all six regexes carry the `i`
flag). -/
def ciCharEq (a b : Char) : Bool := a.toLower = b.toLower

/-- `pat` is a case-insensitive prefix of `l`; the negative lookahead
`(?!none|transparent)` tests its alternatives against the upcoming text
this way. -/
def ciLeads : List Char → List Char → Bool
  | [], _ => true
  | _ :: _, [] => false
  | p :: ps, c :: cs => ciCharEq p c && ciLeads ps cs

/-- Consume `pat` case-insensitively from the head of `l`, returning the
rest after it. -/
def matchCI : List Char → List Char → Option (List Char)
  | [], l => some l
  | _ :: _, [] => none
  | p :: ps, c :: cs => if ciCharEq p c then matchCI ps cs else none

/-- `[^q]*q`: the greedy value run up to and including the next quote `q`;
returns the value and the rest after the closing quote, `none` when `l`
has no `q` (the pattern then cannot complete). -/
def takeToQuote (q : Char) : List Char → Option (List Char × List Char)
  | [] => none
  | c :: cs =>
    if c = q then some ([], cs)
    else
      match takeToQuote q cs with
      | some (v, r) => some (c :: v, r)
      | none => none

/-- The negative lookahead `(?!none|transparent)`, case-insensitive. -/
def valueExcluded (l : List Char) : Bool :=
  ciLeads "none".data l || ciLeads "transparent".data l

/-- After the attribute name matched: require `=` then the quote `q`, test
the lookahead, then consume `[^q]*q`. -/
def tryAttrTail (q : Char) : List Char → Option (List Char)
  | c1 :: c2 :: l3 =>
    if c1 = '=' then
      if c2 = q then
        if valueExcluded l3 then none
        else (takeToQuote q l3).map (fun vr => vr.2)
      else none
    else none
  | _ => none

/-- Try the attribute regex `attr=q(?!none|transparent)[^q]*q` at the head
of `l`; on a match, return the rest of the input after the match. -/
def tryAttr (attr : List Char) (q : Char) (l : List Char) : Option (List Char) :=
  (matchCI attr l).bind (tryAttrTail q)

/-- One character of the style value class `[^;}\s]`. -/
def styleValueChar (c : Char) : Bool :=
  !(c = ';' || c = rbraceChar || isJsSpace c)

/-- Try the inline-style regex `prop:\s*(?!none|transparent)[^;}\s]+` at
the head of `l`; on a match, return the rest of the input after the
match.  Greedy `\s*` followed by the lookahead and a mandatory value
character is equivalent to skipping all whitespace first: if the regex
engine backtracks `\s*` by one, the lookahead sees a whitespace character
(so it passes) but `[^;}\s]+` then fails on that same whitespace. -/
def tryStyleTail : List Char → Option (List Char)
  | c1 :: l2 =>
    if c1 = ':' then
      if valueExcluded (l2.dropWhile isJsSpace) then none
      else
        if (l2.dropWhile isJsSpace).takeWhile styleValueChar = [] then none
        else some ((l2.dropWhile isJsSpace).dropWhile styleValueChar)
    else none
  | [] => none

def tryStyle (prop : List Char) (l : List Char) : Option (List Char) :=
  (matchCI prop l).bind tryStyleTail

/-- One global-replace pass (`String.replace` with the `g` flag) for an
attribute-form regex: scan left to right; at a match emit `repl` and
resume after the match, otherwise keep the character and move on. -/
def replaceAttrScan (attr : List Char) (q : Char) (repl : List Char) :
    (l : List Char) → List Char
  | [] => []
  | c :: cs =>
    match h : tryAttr attr q (c :: cs) with
    | some rest => repl ++ replaceAttrScan attr q repl rest
    | none => c :: replaceAttrScan attr q repl cs
termination_by l => l.length
decreasing_by
· have hm : ∀ (p l2 r : List Char), matchCI p l2 = some r → r.length ≤ l2.length := by
    intro p
    induction p with
    | nil =>
      intro l2 r hmm
      rw [matchCI] at hmm
      cases hmm
      exact Nat.le_refl _
    | cons x xs ih =>
      intro l2 r hmm
      cases l2 with
      | nil => rw [matchCI] at hmm; cases hmm
      | cons y ys =>
        rw [matchCI] at hmm
        by_cases hc : ciCharEq x y = true
        · rw [if_pos hc] at hmm
          exact Nat.le_trans (ih ys r hmm) (by simp)
        · rw [if_neg hc] at hmm
          cases hmm
  have htq : ∀ (l2 : List Char) (v r : List Char),
      takeToQuote q l2 = some (v, r) → r.length < l2.length := by
    intro l2
    induction l2 with
    | nil =>
      intro v r hq
      rw [takeToQuote] at hq
      cases hq
    | cons y ys ih =>
      intro v r hq
      rw [takeToQuote] at hq
      by_cases hc : y = q
      · rw [if_pos hc] at hq
        cases hq
        simp
      · rw [if_neg hc] at hq
        cases hq2 : takeToQuote q ys with
        | none => rw [hq2] at hq; cases hq
        | some vr =>
          rw [hq2] at hq
          cases hq
          exact Nat.lt_trans (ih vr.1 vr.2 hq2) (by simp)
  have key : ∀ (l2 r : List Char), tryAttr attr q l2 = some r → r.length < l2.length := by
    intro l2 r hta
    unfold tryAttr at hta
    cases hmc : matchCI attr l2 with
    | none => rw [hmc] at hta; cases hta
    | some l1 =>
      rw [hmc] at hta
      rw [Option.some_bind] at hta
      have hl1 : l1.length ≤ l2.length := hm attr l2 l1 hmc
      cases l1 with
      | nil => simp [tryAttrTail] at hta
      | cons c1 l1' =>
        cases l1' with
        | nil => simp [tryAttrTail] at hta
        | cons c2 l3 =>
          rw [tryAttrTail] at hta
          by_cases hc1 : c1 = '='
          · rw [if_pos hc1] at hta
            by_cases hc2 : c2 = q
            · rw [if_pos hc2] at hta
              by_cases hex : valueExcluded l3 = true
              · rw [if_pos hex] at hta; cases hta
              · rw [if_neg hex] at hta
                cases hq3 : takeToQuote q l3 with
                | none => rw [hq3] at hta; cases hta
                | some vr =>
                  rw [hq3] at hta
                  cases hta
                  have h3 := htq l3 vr.1 vr.2 (by rw [hq3])
                  simp at hl1
                  show vr.2.length < l2.length
                  omega
            · rw [if_neg hc2] at hta; cases hta
          · rw [if_neg hc1] at hta; cases hta
  simp only [List.length_cons]
  have := key _ _ h
  simpa using this
· simp

/-- One global-replace pass for an inline-style regex. -/
def replaceStyleScan (prop : List Char) (repl : List Char) :
    (l : List Char) → List Char
  | [] => []
  | c :: cs =>
    match h : tryStyle prop (c :: cs) with
    | some rest => repl ++ replaceStyleScan prop repl rest
    | none => c :: replaceStyleScan prop repl cs
termination_by l => l.length
decreasing_by
· have hm : ∀ (p l2 r : List Char), matchCI p l2 = some r → r.length ≤ l2.length := by
    intro p
    induction p with
    | nil =>
      intro l2 r hmm
      rw [matchCI] at hmm
      cases hmm
      exact Nat.le_refl _
    | cons x xs ih =>
      intro l2 r hmm
      cases l2 with
      | nil => rw [matchCI] at hmm; cases hmm
      | cons y ys =>
        rw [matchCI] at hmm
        by_cases hc : ciCharEq x y = true
        · rw [if_pos hc] at hmm
          exact Nat.le_trans (ih ys r hmm) (by simp)
        · rw [if_neg hc] at hmm
          cases hmm
  have hdw : ∀ (pb : Char → Bool) (l2 : List Char), (l2.dropWhile pb).length ≤ l2.length := by
    intro pb l2
    induction l2 with
    | nil => simp [List.dropWhile]
    | cons y ys ih =>
      rw [List.dropWhile]
      by_cases hc : pb y = true
      · rw [hc]
        simpa using Nat.le_trans ih (by simp)
      · have : pb y = false := by
          cases hpy : pb y
          · rfl
          · exact absurd hpy hc
        rw [this]
  have key : ∀ (l2 r : List Char), tryStyle prop l2 = some r → r.length < l2.length := by
    intro l2 r hts
    unfold tryStyle at hts
    cases hmc : matchCI prop l2 with
    | none => rw [hmc] at hts; cases hts
    | some l1 =>
      rw [hmc] at hts
      rw [Option.some_bind] at hts
      have hl1 : l1.length ≤ l2.length := hm prop l2 l1 hmc
      cases l1 with
      | nil => rw [tryStyleTail] at hts; cases hts
      | cons c1 l3 =>
        rw [tryStyleTail] at hts
        by_cases hc1 : c1 = ':'
        · rw [if_pos hc1] at hts
          by_cases hex : valueExcluded (l3.dropWhile isJsSpace) = true
          · rw [if_pos hex] at hts; cases hts
          · rw [if_neg hex] at hts
            by_cases hv : (l3.dropWhile isJsSpace).takeWhile styleValueChar = []
            · rw [if_pos hv] at hts; cases hts
            · rw [if_neg hv] at hts
              cases hts
              have h4 : ((l3.dropWhile isJsSpace).dropWhile styleValueChar).length <
                  (l3.dropWhile isJsSpace).length := by
                cases hl3 : l3.dropWhile isJsSpace with
                | nil => rw [hl3] at hv; simp [List.takeWhile] at hv
                | cons z zs =>
                  rw [hl3] at hv
                  rw [List.dropWhile]
                  by_cases hz : styleValueChar z = true
                  · rw [hz]
                    simpa using Nat.lt_succ_of_le (hdw styleValueChar zs)
                  · rw [List.takeWhile] at hv
                    have hzf : styleValueChar z = false := by
                      cases hzz : styleValueChar z
                      · rfl
                      · exact absurd hzz hz
                    rw [hzf] at hv
                    exact absurd rfl hv
              have h5 := hdw isJsSpace l3
              simp at hl1
              omega
        · rw [if_neg hc1] at hts; cases hts
  simp only [List.length_cons]
  have := key _ _ h
  simpa using this
· simp

/-- `SVGLoader.convertToCurrentColor` (src/src/app.js lines 27-35): the
six sequential global replaces, in source order — fill/stroke in
double-quoted attribute form, fill/stroke in single-quoted attribute form,
fill/stroke in inline-style form.  Each match is replaced by the literal
lowercase directive with value `currentColor`. -/
def convertLC (l : List Char) : List Char :=
  replaceStyleScan strokeP "stroke: currentColor".data
    (replaceStyleScan fillP "fill: currentColor".data
      (replaceAttrScan strokeP sqChar "stroke='currentColor'".data
        (replaceAttrScan fillP sqChar "fill='currentColor'".data
          (replaceAttrScan strokeP dqChar "stroke=\"currentColor\"".data
            (replaceAttrScan fillP dqChar "fill=\"currentColor\"".data l)))))

def convertToCurrentColor (s : String) : String :=
  String.mk (convertLC s.data)

/-- A characterization of ordinary color-value characters (hex colors,
color names, `rgb(...)` noise aside): not a quote of either kind, not the
`=`/`:` of a directive head, and not in the style value's stop class
`[^;}\s]`.  Used as a hypothesis delimiting the values the normalization
statements range over. -/
def plainValueChar (c : Char) : Bool :=
  !(c = dqChar || c = sqChar || c = '=' || c = ':' || c = ';' || c = rbraceChar ||
    isJsSpace c)

/- ==============================================================
   Icon injection: SVGLoader.injectAllIcons, src/src/app.js lines 65-95
   ============================================================== -/

/-- One DOM node a generated selector can target: `dataIcon` is its
`data-icon` attribute (selectors are `[data-icon="<key>"]`),
`insideToggle` is `closest('.toggle') !== null`, `pressedClass` is
`classList.contains('pressed')`, `content` its `innerHTML`. -/
structure DomNode where
  dataIcon : Option String
  insideToggle : Bool
  pressedClass : Bool
  content : String
deriving DecidableEq

/-- One iteration of the `injectAllIcons` loop (src/src/app.js lines
66-92) for catalog key `key`, acting on one node: key `toggle` is
excluded; a missing or empty (falsy) cache entry is skipped with a
warning; a node inside a `.toggle` that itself carries class `pressed` is
skipped; any other node matching `[data-icon="<key>"]` receives the
color-normalized markup as its content.  A key whose selector matches no
node changes nothing and is only logged. -/
def injectNodeStep (cache : List (String × String)) (key : String) (n : DomNode) :
    DomNode :=
  if key = "toggle" then n
  else if (lookupKey cache key).getD "" = "" then n
  else if n.dataIcon = some key then
    if n.insideToggle ∧ n.pressedClass then n
    else { n with content := convertToCurrentColor ((lookupKey cache key).getD "") }
  else n

/-- `SVGLoader.injectAllIcons` (src/src/app.js lines 65-95): the outer
loop over catalog entries; each entry rewrites its matching nodes
node-wise. -/
def injectAllIcons (keys : List String) (cache : List (String × String))
    (nodes : List DomNode) : List DomNode :=
  keys.foldl (fun ns k => ns.map (injectNodeStep cache k)) nodes

/-- A node matching `[data-icon="add"]`, outside any toggle, with prior
content. -/
def c9Node : DomNode := ⟨some "add", false, false, "old"⟩

/- ==============================================================
   Label update pass: StyleManager.updateButtonLabels,
   src/src/app.js lines 192-211
   ============================================================== -/

/-- The four characters `<br>` at the head of the list: the split point of
`label.innerHTML.split('<br>')[0]`. -/
def leadsBr : List Char → Bool
  | '<' :: 'b' :: 'r' :: '>' :: _ => true
  | _ => false

/-- Characters before the first `<br>` (`innerHTML.split('<br>')[0]`). -/
def takeBeforeBr : List Char → List Char
  | [] => []
  | c :: cs => if leadsBr (c :: cs) then [] else c :: takeBeforeBr cs

/-- Contents of a label element.  The DOM holds a flat string; after an
update it is `primary ++ "<br>" ++ contrast.toFixed(2)`, kept here in
structured form (`withRatio primary ratio`) because decimal formatting of
an IEEE double is outside the model.  A `none` ratio is `NaN`. -/
inductive LabelContent where
  | raw : String → LabelContent
  | withRatio : String → Option ℝ → LabelContent

/-- One `.button` as `updateButtonLabels` sees it: the computed text color
of its `.label` child (when it has one), its own computed background
color, and the label's current contents (`none` when the button has no
`.label`). -/
structure CButton where
  textColor : String
  backgroundColor : String
  label : Option LabelContent

/-- `label.innerHTML.split('<br>')[0]`.  A `withRatio` label renders as
`primary ++ "<br>" ++ <digits>`, whose part before the first `<br>` is
`primary` itself (an updated primary never contains `<br>`, being a split
result, and `toFixed(2)` output never contains `<`). -/
def primaryText : LabelContent → String
  | LabelContent.raw s => String.mk (takeBeforeBr s.data)
  | LabelContent.withRatio p _ => p

/-- The `updateButtonLabels` callback body for one button (src/src/app.js
lines 195-209): a button without a `.label` is skipped; a throw from
`calculateContrast` aborts; otherwise the label is rewritten to its
primary text plus the freshly computed ratio. -/
noncomputable def updateOneLabel (b : CButton) : Except String CButton :=
  match b.label with
  | none => Except.ok b
  | some lc =>
    match calculateContrast b.textColor b.backgroundColor with
    | Except.error e => Except.error e
    | Except.ok r =>
      Except.ok { b with label := some (LabelContent.withRatio (primaryText lc) r) }

/-- `StyleManager.updateButtonLabels` (src/src/app.js lines 192-211): a
`forEach` over the buttons in document order whose body has no try/catch,
so a thrown `ColorParseFailure` propagates out of the `forEach`: buttons
already visited keep their updated labels, the failing button and every
later button keep their old labels, and the pass ends with the
exception. -/
noncomputable def updateButtonLabels : List CButton → List CButton × Option String
  | [] => ([], none)
  | b :: bs =>
    match updateOneLabel b with
    | Except.error e => (b :: bs, some e)
    | Except.ok b' =>
      let r := updateButtonLabels bs
      (b' :: r.1, r.2)

/-- Two buttons: the first's computed text color is `transparent`, the
second's colors are parseable. -/
noncomputable def c3Buttons : List CButton :=
  [⟨"transparent", "rgb(0, 0, 0)", some (LabelContent.raw "A")⟩,
   ⟨"rgb(255, 255, 255)", "rgb(0, 0, 0)", some (LabelContent.raw "B")⟩]

/-- A 2-showcase grid of 5 visible buttons each, in list order: the
showcase (ancestor identity) of each visible button. -/
def demoShowcases : List (Option Nat) :=
  [some 0, some 0, some 0, some 0, some 0, some 1, some 1, some 1, some 1, some 1]

/-- A button list whose first button is hidden (`offsetParent === null`)
and whose second is visible. -/
def c8Buttons : List NavBtn := [⟨true⟩, ⟨false⟩]

/- ==============================================================
   Theorems
   ============================================================== -/

theorem filter_ne_find?_eq_none (c : List (String × String)) (k : String) :
    (c.filter (fun e => e.1 ≠ k)).find? (fun e => e.1 = k) = none := by
  induction c with
  | nil => rfl
  | cons e es ih =>
    by_cases h : e.1 = k
    · rw [List.filter_cons_of_neg (by simp [h])]
      exact ih
    · rw [List.filter_cons_of_pos (by simp [h]), List.find?_cons_of_neg _ (by simp [h])]
      exact ih

theorem filter_ne_filter_eq_nil (c : List (String × String)) (k : String) :
    (c.filter (fun e => e.1 ≠ k)).filter (fun e => e.1 = k) = [] := by
  induction c with
  | nil => rfl
  | cons e es ih =>
    by_cases h : e.1 = k
    · rw [List.filter_cons_of_neg (by simp [h])]
      exact ih
    · rw [List.filter_cons_of_pos (by simp [h]), List.filter_cons_of_neg (by simp [h])]
      exact ih

theorem countKey_mapSet_self (c : List (String × String)) (k v : String) :
    countKey (mapSet c k v) k = 1 := by
  unfold countKey mapSet
  rw [List.filter_append, filter_ne_filter_eq_nil, List.filter_cons_of_pos (by simp)]
  simp

theorem lookupKey_mapSet_self (c : List (String × String)) (k v : String) :
    lookupKey (mapSet c k v) k = some v := by
  unfold lookupKey mapSet
  rw [List.find?_append, filter_ne_find?_eq_none, List.find?_cons_of_pos _ (by simp)]
  rfl

theorem filter_eq_comm_ne (c : List (String × String)) (k k' : String) (h : k' ≠ k) :
    (c.filter (fun e => e.1 ≠ k)).filter (fun e => e.1 = k') =
      c.filter (fun e => e.1 = k') := by
  induction c with
  | nil => rfl
  | cons e es ih =>
    by_cases h2 : e.1 = k
    · have h1 : ¬e.1 = k' := by
        rw [h2]; exact fun hh => h hh.symm
      have hin : (e :: es).filter (fun e => e.1 ≠ k) = es.filter (fun e => e.1 ≠ k) :=
        List.filter_cons_of_neg (by simp [h2])
      rw [hin, ih, List.filter_cons_of_neg (by simp [h1])]
    · have hin : (e :: es).filter (fun e => e.1 ≠ k) =
          e :: es.filter (fun e => e.1 ≠ k) :=
        List.filter_cons_of_pos (by simp [h2])
      by_cases h1 : e.1 = k'
      · rw [hin, List.filter_cons_of_pos (by simp [h1]),
          List.filter_cons_of_pos (by simp [h1]), ih]
      · rw [hin, List.filter_cons_of_neg (by simp [h1]),
          List.filter_cons_of_neg (by simp [h1]), ih]

theorem find?_filter_ne_comm (c : List (String × String)) (k k' : String) (h : k' ≠ k) :
    (c.filter (fun e => e.1 ≠ k)).find? (fun e => e.1 = k') =
      c.find? (fun e => e.1 = k') := by
  induction c with
  | nil => rfl
  | cons e es ih =>
    by_cases h2 : e.1 = k
    · have h1 : ¬e.1 = k' := by
        rw [h2]; exact fun hh => h hh.symm
      have hin : (e :: es).filter (fun e => e.1 ≠ k) = es.filter (fun e => e.1 ≠ k) :=
        List.filter_cons_of_neg (by simp [h2])
      rw [hin, ih, List.find?_cons_of_neg _ (by simp [h1])]
    · have hin : (e :: es).filter (fun e => e.1 ≠ k) =
          e :: es.filter (fun e => e.1 ≠ k) :=
        List.filter_cons_of_pos (by simp [h2])
      by_cases h1 : e.1 = k'
      · rw [hin, List.find?_cons_of_pos _ (by simp [h1]),
          List.find?_cons_of_pos _ (by simp [h1])]
      · rw [hin, List.find?_cons_of_neg _ (by simp [h1]),
          List.find?_cons_of_neg _ (by simp [h1]), ih]

theorem countKey_mapSet_other (c : List (String × String)) (k v k' : String)
    (h : k' ≠ k) : countKey (mapSet c k v) k' = countKey c k' := by
  unfold countKey mapSet
  rw [List.filter_append, filter_eq_comm_ne c k k' h,
    List.filter_cons_of_neg (by simp [Ne.symm h])]
  simp

theorem lookupKey_mapSet_other (c : List (String × String)) (k v k' : String)
    (h : k' ≠ k) : lookupKey (mapSet c k v) k' = lookupKey c k' := by
  unfold lookupKey mapSet
  rw [List.find?_append, find?_filter_ne_comm c k k' h,
    List.find?_cons_of_neg _ (by simp [Ne.symm h])]
  simp

theorem preloadFold_not_mem (keys : List String) (g : String → String) (k : String)
    (hk : k ∉ keys) :
    ∀ c, countKey (keys.foldl (fun c' k' => mapSet c' k' (g k')) c) k = countKey c k ∧
      lookupKey (keys.foldl (fun c' k' => mapSet c' k' (g k')) c) k = lookupKey c k := by
  induction keys with
  | nil => intro c; exact ⟨rfl, rfl⟩
  | cons a as ih =>
    intro c
    have hka : k ≠ a := fun h => hk (by simp [h])
    have hkas : k ∉ as := fun h => hk (by simp [h])
    have := ih hkas (mapSet c a (g a))
    refine ⟨?_, ?_⟩
    · rw [List.foldl_cons, this.1, countKey_mapSet_other c a (g a) k hka]
    · rw [List.foldl_cons, this.2, lookupKey_mapSet_other c a (g a) k hka]

theorem preloadFold_mem (keys : List String) (g : String → String) (k : String)
    (hk : k ∈ keys) :
    ∀ c, countKey (keys.foldl (fun c' k' => mapSet c' k' (g k')) c) k = 1 ∧
      lookupKey (keys.foldl (fun c' k' => mapSet c' k' (g k')) c) k = some (g k) := by
  induction keys with
  | nil => exact absurd hk (by simp)
  | cons a as ih =>
    intro c
    by_cases has : k ∈ as
    · exact ih has (mapSet c a (g a))
    · have hka : k = a := by
        rcases List.mem_cons.mp hk with h | h
        · exact h
        · exact absurd h has
      subst hka
      have := preloadFold_not_mem as g k has (mapSet c k (g k))
      refine ⟨?_, ?_⟩
      · rw [List.foldl_cons, this.1, countKey_mapSet_self]
      · rw [List.foldl_cons, this.2, lookupKey_mapSet_self]

/-- C1: after `preloadAllIcons` completes, every icon identifier present in
the catalog has exactly one cache entry: the fetched markup on success,
the fallback attempt's markup (stored under the original identifier) when
the primary fetch fails but the fallback succeeds, and the empty string
when both attempts fail.  The theorem holds for arbitrary fetch-outcome
environments `prim`/`fb`, including ones where every fetch fails: the
aggregate operation is a total function of the outcomes, i.e. it resolves
and never rejects. -/
theorem c1_preload_cache_complete (keys : List String)
    (prim fb : String → Option String) (k : String) (hk : k ∈ keys) :
    countKey (preloadAllIcons keys prim fb) k = 1 ∧
    (∀ m, prim k = some m → lookupKey (preloadAllIcons keys prim fb) k = some m) ∧
    (∀ m, prim k = none → fb k = some m →
      lookupKey (preloadAllIcons keys prim fb) k = some m) ∧
    (prim k = none → fb k = none →
      lookupKey (preloadAllIcons keys prim fb) k = some "") := by
  have h := preloadFold_mem keys (fun k' => loadOneIcon (prim k') (fb k')) k hk []
  refine ⟨h.1, ?_, ?_, ?_⟩
  · intro m hm
    have h2 := h.2
    rw [hm] at h2
    simpa [preloadAllIcons, loadOneIcon] using h2
  · intro m hp hf
    have h2 := h.2
    rw [hp, hf] at h2
    simpa [preloadAllIcons, loadOneIcon] using h2
  · intro hp hf
    have h2 := h.2
    rw [hp, hf] at h2
    simpa [preloadAllIcons, loadOneIcon] using h2

theorem c1_preload_cache_complete_witness :
    "add" ∈ ["add", "toggle"] ∧
    countKey (preloadAllIcons ["add", "toggle"] (fun _ => none) (fun _ => none))
      "add" = 1 ∧
    lookupKey (preloadAllIcons ["add", "toggle"] (fun _ => none) (fun _ => none))
      "add" = some "" := by
  have hmem : "add" ∈ ["add", "toggle"] := by decide
  have h := c1_preload_cache_complete ["add", "toggle"] (fun _ => none)
    (fun _ => none) "add" hmem
  exact ⟨hmem, h.1, h.2.2.2 rfl rfl⟩

theorem searchFrom_some (sc : List (Option Nat)) (cur : Option Nat) (f : Nat → Nat) :
    ∀ fuel j t, searchFrom sc cur f j fuel = some t →
      ∃ d, d < fuel ∧ t = f (j + d) ∧ sc.getD (f (j + d)) none ≠ cur ∧
        ∀ d' < d, sc.getD (f (j + d')) none = cur := by
  intro fuel
  induction fuel with
  | zero =>
    intro j t h
    simp [searchFrom] at h
  | succ n ih =>
    intro j t h
    rw [searchFrom] at h
    by_cases hd : sc.getD (f j) none ≠ cur
    · rw [if_pos hd] at h
      refine ⟨0, Nat.succ_pos n, ?_, ?_, ?_⟩
      · simpa using (Option.some.inj h).symm
      · simpa using hd
      · intro d' hd'
        omega
    · rw [if_neg hd] at h
      obtain ⟨d, hdn, ht, hdiffd, hmin⟩ := ih (j + 1) t h
      have hidx : j + 1 + d = j + (d + 1) := by omega
      refine ⟨d + 1, by omega, ?_, ?_, ?_⟩
      · rw [← hidx]
        exact ht
      · rw [← hidx]
        exact hdiffd
      · intro d' hd'
        cases d' with
        | zero =>
          push_neg at hd
          simpa using hd
        | succ d'' =>
          have : j + (d'' + 1) = j + 1 + d'' := by omega
          rw [this]
          exact hmin d'' (by omega)

theorem searchFrom_isSome (sc : List (Option Nat)) (cur : Option Nat) (f : Nat → Nat) :
    ∀ fuel j, (∃ d, d < fuel ∧ sc.getD (f (j + d)) none ≠ cur) →
      ∃ t, searchFrom sc cur f j fuel = some t := by
  intro fuel
  induction fuel with
  | zero =>
    rintro j ⟨d, hd, _⟩
    omega
  | succ n ih =>
    rintro j ⟨d, hd, hdiffd⟩
    rw [searchFrom]
    by_cases h0 : sc.getD (f j) none ≠ cur
    · exact ⟨f j, by rw [if_pos h0]⟩
    · rw [if_neg h0]
      push_neg at h0
      apply ih
      cases d with
      | zero =>
        rw [Nat.add_zero] at hdiffd
        exact absurd h0 hdiffd
      | succ d' =>
        refine ⟨d', by omega, ?_⟩
        have : j + 1 + d' = j + (d' + 1) := by omega
        rw [this]
        exact hdiffd

theorem firstIdxWhere_spec (p : Option Nat → Bool) :
    ∀ (l : List (Option Nat)) (t : Nat), firstIdxWhere p l = some t →
      t < l.length ∧ p (l.getD t none) = true ∧ ∀ m < t, p (l.getD m none) = false := by
  intro l
  induction l with
  | nil =>
    intro t h
    simp [firstIdxWhere] at h
  | cons g gs ih =>
    intro t h
    rw [firstIdxWhere] at h
    by_cases hg : p g = true
    · rw [if_pos hg] at h
      obtain rfl : (0 : Nat) = t := Option.some.inj h
      exact ⟨by simp, by simpa using hg, by omega⟩
    · rw [if_neg hg] at h
      cases hfw : firstIdxWhere p gs with
      | none =>
        rw [hfw] at h
        simp at h
      | some t' =>
        rw [hfw] at h
        have ht : t' + 1 = t := by simpa using h
        obtain ⟨hlen', hp', hmin'⟩ := ih t' hfw
        subst ht
        refine ⟨by simpa using hlen', by simpa using hp', ?_⟩
        intro m hm
        cases m with
        | zero =>
          simpa using Bool.eq_false_iff.mpr (fun hc => hg hc)
        | succ m' =>
          simpa using hmin' m' (by omega)

theorem firstIdxWhere_isSome (p : Option Nat → Bool) :
    ∀ (l : List (Option Nat)) (idx : Nat), idx < l.length →
      p (l.getD idx none) = true → ∃ t, firstIdxWhere p l = some t := by
  intro l
  induction l with
  | nil =>
    intro idx h
    simp at h
  | cons g gs ih =>
    intro idx hlen hp
    rw [firstIdxWhere]
    by_cases hg : p g = true
    · exact ⟨0, by rw [if_pos hg]⟩
    · rw [if_neg hg]
      cases idx with
      | zero => exact absurd (by simpa using hp) hg
      | succ idx' =>
        obtain ⟨t, ht⟩ := ih idx' (by simpa using hlen) (by simpa using hp)
        exact ⟨t + 1, by rw [ht]; rfl⟩

theorem mod_roundtrip_down (i k len : Nat) (hi : i < len) (hk : k < len) :
    (i + (k + len - i) % len) % len = k := by
  rw [Nat.add_mod_mod]
  have e2 : i + (k + len - i) = k + len := by omega
  rw [e2, Nat.add_mod_right]
  exact Nat.mod_eq_of_lt hk

theorem mod_roundtrip_up (i k len : Nat) (hi : i < len) (hk : k < len) :
    (i + len - (i + len - k) % len) % len = k := by
  have hlen : 0 < len := Nat.lt_of_le_of_lt (Nat.zero_le i) hi
  have hsplit : len * ((i + len - k) / len) + (i + len - k) % len = i + len - k :=
    Nat.div_add_mod (i + len - k) len
  have hr : (i + len - k) % len < len := Nat.mod_lt _ hlen
  obtain ⟨m, hm⟩ : ∃ m, m = len * ((i + len - k) / len) := ⟨_, rfl⟩
  rw [← hm] at hsplit
  have hgoal1 : i + len - (i + len - k) % len = k + m := by omega
  rw [hgoal1, hm, Nat.add_mul_mod_self_left]
  exact Nat.mod_eq_of_lt hk

/-- C6: over the ordered list of visible buttons (each tagged with the
identity of its enclosing showcase, `none` when it has none), whenever some
visible button sits in a different showcase than the focused button `i`:
ArrowDown focuses the nearest circularly-subsequent button whose showcase
differs from `i`'s — in particular it never lands in `i`'s own showcase —
and ArrowUp finds the nearest circularly-preceding button in a different
showcase and focuses the first button of that showcase in list order. -/
theorem c6_arrow_showcase_navigation (sc : List (Option Nat)) (i : Nat)
    (hi : i < sc.length)
    (hdiff : ∃ k, k < sc.length ∧ sc.getD k none ≠ sc.getD i none) :
    (∃ j, 1 ≤ j ∧ j < sc.length ∧
      arrowDownTarget sc i = some ((i + j) % sc.length) ∧
      sc.getD ((i + j) % sc.length) none ≠ sc.getD i none ∧
      ∀ j', 1 ≤ j' → j' < j →
        sc.getD ((i + j') % sc.length) none = sc.getD i none) ∧
    (∃ j t, 1 ≤ j ∧ j < sc.length ∧
      sc.getD ((i + sc.length - j) % sc.length) none ≠ sc.getD i none ∧
      (∀ j', 1 ≤ j' → j' < j →
        sc.getD ((i + sc.length - j') % sc.length) none = sc.getD i none) ∧
      arrowUpTarget sc i = some t ∧
      sc.getD t none = sc.getD ((i + sc.length - j) % sc.length) none ∧
      ∀ t' < t, sc.getD t' none ≠ sc.getD ((i + sc.length - j) % sc.length) none) := by
  obtain ⟨k, hk, hkdiff⟩ := hdiff
  have hlen : 0 < sc.length := Nat.lt_of_le_of_lt (Nat.zero_le i) hi
  have hki : k ≠ i := fun h => hkdiff (by rw [h])
  constructor
  · -- ArrowDown
    have hfd : (i + (k + sc.length - i) % sc.length) % sc.length = k :=
      mod_roundtrip_down i k sc.length hi hk
    have hj0 : 1 ≤ (k + sc.length - i) % sc.length := by
      rcases Nat.eq_zero_or_pos ((k + sc.length - i) % sc.length) with h0 | h1
      · exfalso
        rw [h0, Nat.add_zero, Nat.mod_eq_of_lt hi] at hfd
        exact hki hfd.symm
      · exact h1
    have hj0lt : (k + sc.length - i) % sc.length < sc.length := Nat.mod_lt _ hlen
    obtain ⟨t, ht⟩ := searchFrom_isSome sc (sc.getD i none)
      (fun j => (i + j) % sc.length) (sc.length - 1) 1
      ⟨(k + sc.length - i) % sc.length - 1, by omega, by
        show sc.getD ((i + (1 + ((k + sc.length - i) % sc.length - 1))) % sc.length)
            none ≠ sc.getD i none
        have heq1 : 1 + ((k + sc.length - i) % sc.length - 1) =
            (k + sc.length - i) % sc.length := by omega
        rw [heq1, hfd]
        exact hkdiff⟩
    obtain ⟨d, hdlt, htd, hdiffd, hmind⟩ :=
      searchFrom_some sc (sc.getD i none) (fun j => (i + j) % sc.length)
        (sc.length - 1) 1 t ht
    refine ⟨1 + d, by omega, by omega, ?_, hdiffd, ?_⟩
    · rw [arrowDownTarget, ht, htd]
    · intro j' h1 h2
      have := hmind (j' - 1) (by omega)
      have hj' : 1 + (j' - 1) = j' := by omega
      rw [hj'] at this
      exact this
  · -- ArrowUp
    have hfu : (i + sc.length - (i + sc.length - k) % sc.length) % sc.length = k :=
      mod_roundtrip_up i k sc.length hi hk
    have hj1 : 1 ≤ (i + sc.length - k) % sc.length := by
      rcases Nat.eq_zero_or_pos ((i + sc.length - k) % sc.length) with h0 | h1
      · exfalso
        rw [h0, Nat.sub_zero, Nat.add_mod_right, Nat.mod_eq_of_lt hi] at hfu
        exact hki hfu.symm
      · exact h1
    have hj1lt : (i + sc.length - k) % sc.length < sc.length := Nat.mod_lt _ hlen
    obtain ⟨t0, ht0⟩ := searchFrom_isSome sc (sc.getD i none)
      (fun j => (i + sc.length - j) % sc.length) (sc.length - 1) 1
      ⟨(i + sc.length - k) % sc.length - 1, by omega, by
        show sc.getD ((i + sc.length - (1 + ((i + sc.length - k) % sc.length - 1))) %
            sc.length) none ≠ sc.getD i none
        have heq1 : 1 + ((i + sc.length - k) % sc.length - 1) =
            (i + sc.length - k) % sc.length := by omega
        rw [heq1, hfu]
        exact hkdiff⟩
    obtain ⟨d, hdlt, htd, hdiffd, hmind⟩ :=
      searchFrom_some sc (sc.getD i none) (fun j => (i + sc.length - j) % sc.length)
        (sc.length - 1) 1 t0 ht0
    have hfound : arrowUpFound sc i = some ((i + sc.length - (1 + d)) % sc.length) := by
      rw [arrowUpFound, ht0, htd]
    have hplt : (i + sc.length - (1 + d)) % sc.length < sc.length := Nat.mod_lt _ hlen
    obtain ⟨t, htt⟩ := firstIdxWhere_isSome
      (fun g => g = sc.getD ((i + sc.length - (1 + d)) % sc.length) none) sc
      ((i + sc.length - (1 + d)) % sc.length) hplt (by simp)
    obtain ⟨htlen, htp, htmin⟩ := firstIdxWhere_spec _ sc t htt
    refine ⟨1 + d, t, by omega, by omega, hdiffd, ?_, ?_, ?_, ?_⟩
    · intro j' h1 h2
      have := hmind (j' - 1) (by omega)
      have hj' : 1 + (j' - 1) = j' := by omega
      rw [hj'] at this
      exact this
    · rw [arrowUpTarget, hfound]
      exact htt
    · simpa using htp
    · intro t' ht'
      have := htmin t' ht'
      simpa using this

theorem c6_arrow_showcase_navigation_witness :
    2 < demoShowcases.length ∧
    (∃ t, arrowDownTarget demoShowcases 2 = some t ∧
      demoShowcases.getD t none ≠ demoShowcases.getD 2 none) ∧
    (∃ t, arrowUpTarget demoShowcases 2 = some t ∧
      demoShowcases.getD t none ≠ demoShowcases.getD 2 none) := by
  have h := c6_arrow_showcase_navigation demoShowcases 2 (by decide)
    ⟨5, by decide, by decide⟩
  refine ⟨by decide, ?_, ?_⟩
  · obtain ⟨j, _, _, hdown, hne, _⟩ := h.1
    exact ⟨(2 + j) % demoShowcases.length, hdown, hne⟩
  · obtain ⟨j, t, _, _, hdiffj, _, hup, heq, _⟩ := h.2
    refine ⟨t, hup, ?_⟩
    rw [heq]
    exact hdiffj

/-- C7: a click whose target lies inside a button marked
`aria-disabled="true"` is intercepted by the capture-phase
`blockDisabledButtonEvents` listener, which prevents the default action and
stops propagation and immediate propagation; no later handler runs (the
trace holds only the blocker), and the button's classes (including
`pressed`) and its `aria-pressed` attribute are unchanged. -/
theorem c7_disabled_click_suppressed (b : BtnState) (h : b.ariaDisabled = true) :
    dispatchClickOnButton b = (b, ⟨true, true, true⟩, ["blockDisabledButtonEvents"]) ∧
    (dispatchClickOnButton b).1.classes = b.classes ∧
    (dispatchClickOnButton b).1.ariaPressed = b.ariaPressed := by
  refine ⟨?_, ?_, ?_⟩ <;> simp [dispatchClickOnButton, h]

theorem c7_disabled_click_suppressed_witness :
    (BtnState.mk ["button", "toggle", "pressed"] (some "true") true true).ariaDisabled
      = true ∧
    dispatchClickOnButton (BtnState.mk ["button", "toggle", "pressed"]
        (some "true") true true) =
      (BtnState.mk ["button", "toggle", "pressed"] (some "true") true true,
        ⟨true, true, true⟩, ["blockDisabledButtonEvents"]) := by
  have h := c7_disabled_click_suppressed
    (BtnState.mk ["button", "toggle", "pressed"] (some "true") true true) rfl
  exact ⟨rfl, h.1⟩

/-- C8 counterexample: with a hidden first button and a visible second
button and no focused button, an ArrowDown keydown focuses index 0 (the
first button in document order, via `document.querySelector('.button')`),
not the first visible button (index 1) that the claim requires. -/
theorem c8_nofocus_cex :
    (navKeydownNoFocus c8Buttons "ArrowDown").focusTarget = some 0 ∧
    firstVisibleIdxSpec c8Buttons = some 1 ∧
    (navKeydownNoFocus c8Buttons "ArrowDown").focusTarget ≠
      firstVisibleIdxSpec c8Buttons := by
  refine ⟨?_, ?_, ?_⟩ <;> decide

/-- C8 as amended: for every arrow/Home/End keydown that occurs while no
button holds focus, focus moves to the first button in document order
(visible or not — the code applies no visibility filter in this branch),
and no relative navigation is performed. -/
theorem c8_nofocus_first_button (buttons : List NavBtn) (key : String)
    (hk : isArrowNavKey key = true) (hne : buttons ≠ []) :
    navKeydownNoFocus buttons key = ⟨some 0, false⟩ := by
  cases buttons with
  | nil => exact absurd rfl hne
  | cons b bs => simp [navKeydownNoFocus, hk, List.isEmpty]

theorem c8_nofocus_first_button_witness :
    isArrowNavKey "ArrowDown" = true ∧ c8Buttons ≠ [] ∧
    navKeydownNoFocus c8Buttons "ArrowDown" = ⟨some 0, false⟩ :=
  ⟨by decide, by decide,
    c8_nofocus_first_button c8Buttons "ArrowDown" (by decide) (by decide)⟩

theorem channelLum_nonneg (c : ℝ) (hc : 0 ≤ c) : 0 ≤ channelLum c := by
  unfold channelLum
  split_ifs with h
  · positivity
  · apply Real.rpow_nonneg
    positivity

theorem channelLum_le_one (c : ℝ) (hc : c ≤ 255) : channelLum c ≤ 1 := by
  unfold channelLum
  split_ifs with h
  · calc c / 255 / 12.92 ≤ 0.03928 / 12.92 := by gcongr
      _ ≤ 1 := by norm_num
  · push_neg at h
    apply Real.rpow_le_one
    · have hc0 : (0:ℝ) ≤ c := by linarith
      positivity
    · rw [div_le_one (by norm_num : (0:ℝ) < 1.055)]
      have : c / 255 ≤ 1 := by linarith
      linarith
    · norm_num

theorem getLuminance_nonneg (r g b : ℝ) (hr : 0 ≤ r) (hg : 0 ≤ g) (hb : 0 ≤ b) :
    0 ≤ getLuminance r g b := by
  unfold getLuminance
  have h1 := channelLum_nonneg r hr
  have h2 := channelLum_nonneg g hg
  have h3 := channelLum_nonneg b hb
  linarith

theorem getLuminance_le_one (r g b : ℝ) (hr : r ≤ 255) (hg : g ≤ 255) (hb : b ≤ 255) :
    getLuminance r g b ≤ 1 := by
  unfold getLuminance
  have h1 := channelLum_le_one r hr
  have h2 := channelLum_le_one g hg
  have h3 := channelLum_le_one b hb
  linarith

theorem calculateContrastRGBA_symm (r1 g1 b1 r2 g2 b2 : ℝ) :
    calculateContrastRGBA r1 g1 b1 r2 g2 b2 = calculateContrastRGBA r2 g2 b2 r1 g1 b1 := by
  unfold calculateContrastRGBA
  rw [max_comm, min_comm]

theorem calculateContrastRGBA_bounds (r1 g1 b1 r2 g2 b2 : ℝ)
    (h1 : 0 ≤ r1 ∧ r1 ≤ 255) (h2 : 0 ≤ g1 ∧ g1 ≤ 255) (h3 : 0 ≤ b1 ∧ b1 ≤ 255)
    (h4 : 0 ≤ r2 ∧ r2 ≤ 255) (h5 : 0 ≤ g2 ∧ g2 ≤ 255) (h6 : 0 ≤ b2 ∧ b2 ≤ 255) :
    1 ≤ calculateContrastRGBA r1 g1 b1 r2 g2 b2 ∧
      calculateContrastRGBA r1 g1 b1 r2 g2 b2 ≤ 21 := by
  have hl10 := getLuminance_nonneg r1 g1 b1 h1.1 h2.1 h3.1
  have hl11 := getLuminance_le_one r1 g1 b1 h1.2 h2.2 h3.2
  have hl20 := getLuminance_nonneg r2 g2 b2 h4.1 h5.1 h6.1
  have hl21 := getLuminance_le_one r2 g2 b2 h4.2 h5.2 h6.2
  unfold calculateContrastRGBA
  have hmin0 : 0 ≤ min (getLuminance r1 g1 b1) (getLuminance r2 g2 b2) :=
    le_min hl10 hl20
  have hmax1 : max (getLuminance r1 g1 b1) (getLuminance r2 g2 b2) ≤ 1 :=
    max_le hl11 hl21
  have hmm : min (getLuminance r1 g1 b1) (getLuminance r2 g2 b2) ≤
      max (getLuminance r1 g1 b1) (getLuminance r2 g2 b2) := min_le_max
  constructor
  · rw [le_div_iff (by linarith)]
    linarith
  · rw [div_le_iff (by linarith)]
    linarith

theorem calculateContrastRGBA_self (r g b : ℝ) (hr : 0 ≤ r) (hg : 0 ≤ g)
    (hb : 0 ≤ b) : calculateContrastRGBA r g b r g b = 1 := by
  have h0 := getLuminance_nonneg r g b hr hg hb
  unfold calculateContrastRGBA
  rw [max_self, min_self]
  exact div_self (by linarith)

/-- C2: for every pair of colors whose channels parse to values in
[0, 255], the contrast ratio exists, is symmetric in the two colors, and
lies in [1, 21]; and the contrast of any such color with itself is
exactly 1. -/
theorem c2_contrast_symm_range_refl (A B : String) (rA gA bA rB gB bB : Int)
    (hA : getRGB A = Except.ok (some rA, some gA, some bA))
    (hB : getRGB B = Except.ok (some rB, some gB, some bB))
    (hrA : 0 ≤ rA ∧ rA ≤ 255) (hgA : 0 ≤ gA ∧ gA ≤ 255) (hbA : 0 ≤ bA ∧ bA ≤ 255)
    (hrB : 0 ≤ rB ∧ rB ≤ 255) (hgB : 0 ≤ gB ∧ gB ≤ 255) (hbB : 0 ≤ bB ∧ bB ≤ 255) :
    (∃ x : ℝ, calculateContrast A B = Except.ok (some x) ∧
      calculateContrast B A = Except.ok (some x) ∧ 1 ≤ x ∧ x ≤ 21) ∧
    calculateContrast A A = Except.ok (some 1) := by
  have e1 : calculateContrast A B = Except.ok (some (calculateContrastRGBA
      (rA : ℝ) (gA : ℝ) (bA : ℝ) (rB : ℝ) (gB : ℝ) (bB : ℝ))) := by
    simp [calculateContrast, hA, hB]
  have e2 : calculateContrast B A = Except.ok (some (calculateContrastRGBA
      (rB : ℝ) (gB : ℝ) (bB : ℝ) (rA : ℝ) (gA : ℝ) (bA : ℝ))) := by
    simp [calculateContrast, hA, hB]
  have e3 : calculateContrast A A = Except.ok (some (calculateContrastRGBA
      (rA : ℝ) (gA : ℝ) (bA : ℝ) (rA : ℝ) (gA : ℝ) (bA : ℝ))) := by
    simp [calculateContrast, hA]
  have hbd := calculateContrastRGBA_bounds (rA : ℝ) (gA : ℝ) (bA : ℝ)
    (rB : ℝ) (gB : ℝ) (bB : ℝ)
    ⟨by exact_mod_cast hrA.1, by exact_mod_cast hrA.2⟩
    ⟨by exact_mod_cast hgA.1, by exact_mod_cast hgA.2⟩
    ⟨by exact_mod_cast hbA.1, by exact_mod_cast hbA.2⟩
    ⟨by exact_mod_cast hrB.1, by exact_mod_cast hrB.2⟩
    ⟨by exact_mod_cast hgB.1, by exact_mod_cast hgB.2⟩
    ⟨by exact_mod_cast hbB.1, by exact_mod_cast hbB.2⟩
  refine ⟨⟨calculateContrastRGBA (rA : ℝ) (gA : ℝ) (bA : ℝ) (rB : ℝ) (gB : ℝ) (bB : ℝ),
    e1, ?_, hbd.1, hbd.2⟩, ?_⟩
  · rw [e2, calculateContrastRGBA_symm]
  · rw [e3, calculateContrastRGBA_self (rA : ℝ) (gA : ℝ) (bA : ℝ)
      (by exact_mod_cast hrA.1) (by exact_mod_cast hgA.1) (by exact_mod_cast hbA.1)]

theorem c2_contrast_symm_range_refl_witness :
    getRGB "#000000" = Except.ok (some 0, some 0, some 0) ∧
    getRGB "#ffffff" = Except.ok (some 255, some 255, some 255) ∧
    (∃ x : ℝ, calculateContrast "#000000" "#ffffff" = Except.ok (some x) ∧
      calculateContrast "#ffffff" "#000000" = Except.ok (some x) ∧ 1 ≤ x ∧ x ≤ 21) ∧
    calculateContrast "#000000" "#000000" = Except.ok (some 1) := by
  have hA : getRGB "#000000" = Except.ok (some 0, some 0, some 0) := by rfl
  have hB : getRGB "#ffffff" = Except.ok (some 255, some 255, some 255) := by rfl
  have h := c2_contrast_symm_range_refl "#000000" "#ffffff" 0 0 0 255 255 255 hA hB
    (by norm_num) (by norm_num) (by norm_num) (by norm_num) (by norm_num) (by norm_num)
  exact ⟨hA, hB, h.1, h.2⟩

theorem natChannel_le_threshold (a : Nat) (h : a ≤ 10) :
    ((a : ℝ)) / 255 ≤ 0.03928 := by
  have ha : (a : ℝ) ≤ 10 := by exact_mod_cast h
  linarith

theorem natChannel_gt_threshold (b : Nat) (h : 11 ≤ b) :
    ¬((b : ℝ)) / 255 ≤ 0.03928 := by
  have hb : (11 : ℝ) ≤ (b : ℝ) := by exact_mod_cast h
  push_neg
  linarith

theorem lum_cross_step :
    (10 : ℝ) / 255 / 12.92 ≤ (((11 : ℝ) / 255 + 0.055) / 1.055) ^ (2.4 : ℝ) := by
  have hx : ((11 : ℝ) / 255 + 0.055) / 1.055 = 1001 / 10761 := by norm_num
  have h2 : (10 : ℝ) / 255 / 12.92 = 50 / 16473 := by norm_num
  rw [hx, h2]
  have hc : (0 : ℝ) ≤ 50 / 16473 := by norm_num
  have hxpos : (0 : ℝ) ≤ 1001 / 10761 := by norm_num
  have key : ((50 : ℝ) / 16473) ^ (5 : ℕ) ≤ ((1001 : ℝ) / 10761) ^ (12 : ℕ) := by
    norm_num
  have e1 : ((1001 : ℝ) / 10761) ^ (2.4 : ℝ) =
      (((1001 : ℝ) / 10761) ^ (12 : ℕ)) ^ ((1 / 5 : ℝ)) := by
    have h24 : (2.4 : ℝ) = ((12 : ℕ) : ℝ) * (1 / 5 : ℝ) := by norm_num
    rw [h24, Real.rpow_mul hxpos, Real.rpow_natCast]
  have e2 : (((50 : ℝ) / 16473) ^ (5 : ℕ)) ^ ((1 / 5 : ℝ)) = (50 : ℝ) / 16473 := by
    rw [← Real.rpow_natCast ((50 : ℝ) / 16473) 5, ← Real.rpow_mul hc]
    norm_num
  rw [e1, ← e2]
  exact Real.rpow_le_rpow (pow_nonneg hc 5) key (by norm_num)

theorem channelLum_mono_nat (a b : Nat) (hab : a ≤ b) :
    channelLum (a : ℝ) ≤ channelLum (b : ℝ) := by
  rcases le_or_lt b 10 with hb | hb
  · have ha' := natChannel_le_threshold a (le_trans hab hb)
    have hb' := natChannel_le_threshold b hb
    unfold channelLum
    rw [if_pos ha', if_pos hb']
    have habR : (a : ℝ) ≤ (b : ℝ) := by exact_mod_cast hab
    gcongr
  · have hb11 : 11 ≤ b := by omega
    have hbneg := natChannel_gt_threshold b hb11
    rcases le_or_lt a 10 with ha | ha
    · have ha' := natChannel_le_threshold a ha
      unfold channelLum
      rw [if_pos ha', if_neg hbneg]
      have ha10 : (a : ℝ) ≤ 10 := by exact_mod_cast ha
      have hb11R : (11 : ℝ) ≤ (b : ℝ) := by exact_mod_cast hb11
      calc (a : ℝ) / 255 / 12.92 ≤ (10 : ℝ) / 255 / 12.92 := by gcongr
        _ ≤ (((11 : ℝ) / 255 + 0.055) / 1.055) ^ (2.4 : ℝ) := lum_cross_step
        _ ≤ (((b : ℝ) / 255 + 0.055) / 1.055) ^ (2.4 : ℝ) := by
            apply Real.rpow_le_rpow
            · positivity
            · gcongr
            · norm_num
    · have ha11 : 11 ≤ a := by omega
      have haneg := natChannel_gt_threshold a ha11
      unfold channelLum
      rw [if_neg haneg, if_neg hbneg]
      have habR : (a : ℝ) ≤ (b : ℝ) := by exact_mod_cast hab
      apply Real.rpow_le_rpow
      · positivity
      · gcongr
      · norm_num

/-- C5: for integer-valued RGB triples with channels in [0, 255] — the only
channel values the program produces, since `getRGB` rounds (`Math.round`)
or hex-parses (`parseInt`) every channel to an integer — `getLuminance` is
monotonically non-decreasing in each channel, the other two held fixed. -/
theorem c5_luminance_monotone (r g b r' g' b' : Nat)
    (hr : r ≤ 255) (hg : g ≤ 255) (hb : b ≤ 255)
    (hr' : r' ≤ 255) (hg' : g' ≤ 255) (hb' : b' ≤ 255) :
    (r ≤ r' → getLuminance (r : ℝ) (g : ℝ) (b : ℝ) ≤
      getLuminance (r' : ℝ) (g : ℝ) (b : ℝ)) ∧
    (g ≤ g' → getLuminance (r : ℝ) (g : ℝ) (b : ℝ) ≤
      getLuminance (r : ℝ) (g' : ℝ) (b : ℝ)) ∧
    (b ≤ b' → getLuminance (r : ℝ) (g : ℝ) (b : ℝ) ≤
      getLuminance (r : ℝ) (g : ℝ) (b' : ℝ)) := by
  refine ⟨fun h => ?_, fun h => ?_, fun h => ?_⟩ <;> unfold getLuminance
  · linarith [channelLum_mono_nat r r' h]
  · linarith [channelLum_mono_nat g g' h]
  · linarith [channelLum_mono_nat b b' h]

theorem c5_luminance_monotone_witness :
    (10 : Nat) ≤ 255 ∧ (11 : Nat) ≤ 255 ∧
    getLuminance ((10 : Nat) : ℝ) ((0 : Nat) : ℝ) ((0 : Nat) : ℝ) ≤
      getLuminance ((11 : Nat) : ℝ) ((0 : Nat) : ℝ) ((0 : Nat) : ℝ) := by
  refine ⟨by norm_num, by norm_num, ?_⟩
  exact (c5_luminance_monotone 10 0 0 11 0 0 (by norm_num) (by norm_num)
    (by norm_num) (by norm_num) (by norm_num) (by norm_num)).1 (by norm_num)

theorem matchCI_suffix : ∀ (p l r : List Char), matchCI p l = some r → r <:+ l := by
  intro p
  induction p with
  | nil =>
    intro l r h
    rw [matchCI] at h
    cases h
    exact List.suffix_refl _
  | cons x xs ih =>
    intro l r h
    cases l with
    | nil => rw [matchCI] at h; cases h
    | cons y ys =>
      rw [matchCI] at h
      by_cases hc : ciCharEq x y = true
      · rw [if_pos hc] at h
        exact (ih ys r h).trans (List.suffix_cons y ys)
      · rw [if_neg hc] at h
        cases h

theorem matchCI_refl_append : ∀ (p rest : List Char), matchCI p (p ++ rest) = some rest := by
  intro p
  induction p with
  | nil => intro rest; rw [List.nil_append, matchCI]
  | cons x xs ih =>
    intro rest
    rw [List.cons_append, matchCI, if_pos (by simp [ciCharEq])]
    exact ih rest

theorem tryAttr_mem_eq (attr : List Char) (q : Char) (l r : List Char)
    (h : tryAttr attr q l = some r) : '=' ∈ l ∧ q ∈ l := by
  unfold tryAttr at h
  cases hmc : matchCI attr l with
  | none => rw [hmc] at h; cases h
  | some l1 =>
    rw [hmc, Option.some_bind] at h
    have hsuf := matchCI_suffix attr l l1 hmc
    cases l1 with
    | nil => simp [tryAttrTail] at h
    | cons c1 l1' =>
      cases l1' with
      | nil => simp [tryAttrTail] at h
      | cons c2 l3 =>
        rw [tryAttrTail] at h
        by_cases hc1 : c1 = '='
        · by_cases hc2 : c2 = q
          · subst hc1
            subst hc2
            exact ⟨hsuf.subset (by simp), hsuf.subset (by simp)⟩
          · rw [if_pos hc1, if_neg hc2] at h
            cases h
        · rw [if_neg hc1] at h
          cases h

theorem tryStyle_mem_colon (prop : List Char) (l r : List Char)
    (h : tryStyle prop l = some r) : ':' ∈ l := by
  unfold tryStyle at h
  cases hmc : matchCI prop l with
  | none => rw [hmc] at h; cases h
  | some l1 =>
    rw [hmc, Option.some_bind] at h
    have hsuf := matchCI_suffix prop l l1 hmc
    cases l1 with
    | nil => rw [tryStyleTail] at h; cases h
    | cons c1 l2 =>
      rw [tryStyleTail] at h
      by_cases hc1 : c1 = ':'
      · subst hc1
        exact hsuf.subset (by simp)
      · rw [if_neg hc1] at h
        cases h

theorem replaceAttrScan_nil (attr : List Char) (q : Char) (repl : List Char) :
    replaceAttrScan attr q repl [] = [] := by
  rw [replaceAttrScan]

theorem replaceAttrScan_cons_match (attr : List Char) (q : Char) (repl : List Char)
    (c : Char) (cs rest : List Char) (h : tryAttr attr q (c :: cs) = some rest) :
    replaceAttrScan attr q repl (c :: cs) = repl ++ replaceAttrScan attr q repl rest := by
  rw [replaceAttrScan]
  split
  · rename_i rest' heq'
    rw [h] at heq'
    cases heq'
    rfl
  · rename_i heq'
    rw [h] at heq'
    cases heq'

theorem replaceAttrScan_cons_nomatch (attr : List Char) (q : Char) (repl : List Char)
    (c : Char) (cs : List Char) (h : tryAttr attr q (c :: cs) = none) :
    replaceAttrScan attr q repl (c :: cs) = c :: replaceAttrScan attr q repl cs := by
  rw [replaceAttrScan]
  split
  · rename_i rest' heq'
    rw [h] at heq'
    cases heq'
  · rfl

theorem replaceStyleScan_nil (prop : List Char) (repl : List Char) :
    replaceStyleScan prop repl [] = [] := by
  rw [replaceStyleScan]

theorem replaceStyleScan_cons_match (prop : List Char) (repl : List Char)
    (c : Char) (cs rest : List Char) (h : tryStyle prop (c :: cs) = some rest) :
    replaceStyleScan prop repl (c :: cs) = repl ++ replaceStyleScan prop repl rest := by
  rw [replaceStyleScan]
  split
  · rename_i rest' heq'
    rw [h] at heq'
    cases heq'
    rfl
  · rename_i heq'
    rw [h] at heq'
    cases heq'

theorem replaceStyleScan_cons_nomatch (prop : List Char) (repl : List Char)
    (c : Char) (cs : List Char) (h : tryStyle prop (c :: cs) = none) :
    replaceStyleScan prop repl (c :: cs) = c :: replaceStyleScan prop repl cs := by
  rw [replaceStyleScan]
  split
  · rename_i rest' heq'
    rw [h] at heq'
    cases heq'
  · rfl

theorem replaceAttrScan_id_of_not_mem_eq (attr : List Char) (q : Char)
    (repl : List Char) : ∀ l, '=' ∉ l → replaceAttrScan attr q repl l = l := by
  intro l
  induction l with
  | nil => intro _; exact replaceAttrScan_nil attr q repl
  | cons c cs ih =>
    intro hmem
    have hN : tryAttr attr q (c :: cs) = none := by
      cases hT : tryAttr attr q (c :: cs) with
      | none => rfl
      | some r => exact absurd (tryAttr_mem_eq attr q _ r hT).1 hmem
    rw [replaceAttrScan_cons_nomatch attr q repl c cs hN,
      ih (fun hm => hmem (List.mem_cons_of_mem c hm))]

theorem replaceAttrScan_id_of_not_mem_q (attr : List Char) (q : Char)
    (repl : List Char) : ∀ l, q ∉ l → replaceAttrScan attr q repl l = l := by
  intro l
  induction l with
  | nil => intro _; exact replaceAttrScan_nil attr q repl
  | cons c cs ih =>
    intro hmem
    have hN : tryAttr attr q (c :: cs) = none := by
      cases hT : tryAttr attr q (c :: cs) with
      | none => rfl
      | some r => exact absurd (tryAttr_mem_eq attr q _ r hT).2 hmem
    rw [replaceAttrScan_cons_nomatch attr q repl c cs hN,
      ih (fun hm => hmem (List.mem_cons_of_mem c hm))]

theorem replaceStyleScan_id_of_not_mem_colon (prop : List Char)
    (repl : List Char) : ∀ l, ':' ∉ l → replaceStyleScan prop repl l = l := by
  intro l
  induction l with
  | nil => intro _; exact replaceStyleScan_nil prop repl
  | cons c cs ih =>
    intro hmem
    have hN : tryStyle prop (c :: cs) = none := by
      cases hT : tryStyle prop (c :: cs) with
      | none => rfl
      | some r => exact absurd (tryStyle_mem_colon prop _ r hT) hmem
    rw [replaceStyleScan_cons_nomatch prop repl c cs hN,
      ih (fun hm => hmem (List.mem_cons_of_mem c hm))]

theorem ciLeads_mono_append : ∀ (p v w : List Char),
    ciLeads p v = true → ciLeads p (v ++ w) = true := by
  intro p
  induction p with
  | nil => intro v w _; rw [ciLeads]
  | cons x xs ih =>
    intro v w h
    cases v with
    | nil => rw [ciLeads] at h; cases h
    | cons d vs =>
      rw [ciLeads] at h
      rw [List.cons_append, ciLeads]
      rcases Bool.and_eq_true_iff.mp h with ⟨h1, h2⟩
      rw [h1, ih vs w h2]
      rfl

theorem ciLeads_append_one_false : ∀ (p v : List Char) (q : Char),
    (∀ c ∈ p, ciCharEq c q = false) → ciLeads p v = false →
    ciLeads p (v ++ [q]) = false := by
  intro p
  induction p with
  | nil =>
    intro v q _ h
    rw [ciLeads] at h
    cases h
  | cons x xs ih =>
    intro v q hq h
    cases v with
    | nil =>
      rw [List.nil_append, ciLeads]
      rw [hq x (by simp)]
      rfl
    | cons d vs =>
      rw [List.cons_append, ciLeads]
      rw [ciLeads] at h
      by_cases h1 : ciCharEq x d = true
      · rw [h1] at h ⊢
        have h2 : ciLeads xs vs = false := by
          cases hvv : ciLeads xs vs
          · rfl
          · rw [hvv] at h; cases h
        rw [ih vs q (fun c hc => hq c (by simp [hc])) h2]
        rfl
      · have h1f : ciCharEq x d = false := by
          cases hvv : ciCharEq x d
          · rfl
          · exact absurd hvv h1
        rw [h1f]
        rfl

theorem valueExcluded_append_quote (v : List Char) (q : Char)
    (hq1 : ∀ c ∈ "none".data, ciCharEq c q = false)
    (hq2 : ∀ c ∈ "transparent".data, ciCharEq c q = false)
    (h : valueExcluded v = false) : valueExcluded (v ++ [q]) = false := by
  unfold valueExcluded at h ⊢
  rcases Bool.or_eq_false_iff.mp h with ⟨h1, h2⟩
  rw [ciLeads_append_one_false _ v q hq1 h1, ciLeads_append_one_false _ v q hq2 h2]
  rfl

theorem takeToQuote_append_self (q : Char) : ∀ (v : List Char), q ∉ v →
    takeToQuote q (v ++ [q]) = some (v, []) := by
  intro v
  induction v with
  | nil =>
    intro _
    rw [List.nil_append, takeToQuote, if_pos rfl]
  | cons c cs ih =>
    intro hmem
    have hc : ¬c = q := fun h => hmem (by simp [h])
    rw [List.cons_append, takeToQuote, if_neg hc,
      ih (fun hm => hmem (List.mem_cons_of_mem c hm))]

theorem takeWhile_all_eq_self (p : Char → Bool) : ∀ (v : List Char),
    (∀ c ∈ v, p c = true) → v.takeWhile p = v := by
  intro v
  induction v with
  | nil => intro _; rfl
  | cons c cs ih =>
    intro h
    rw [List.takeWhile, h c (by simp), ih (fun d hd => h d (by simp [hd]))]

theorem dropWhile_all_eq_nil (p : Char → Bool) : ∀ (v : List Char),
    (∀ c ∈ v, p c = true) → v.dropWhile p = [] := by
  intro v
  induction v with
  | nil => intro _; rfl
  | cons c cs ih =>
    intro h
    rw [List.dropWhile, h c (by simp)]
    exact ih (fun d hd => h d (by simp [hd]))

theorem dropWhile_eq_self_of_all_neg (p : Char → Bool) (v : List Char)
    (h : ∀ c ∈ v, p c = false) : v.dropWhile p = v := by
  cases v with
  | nil => rfl
  | cons c cs => rw [List.dropWhile, h c (by simp)]

theorem tryAttr_full_match (attr : List Char) (q : Char) (v : List Char)
    (hnq : q ∉ v) (hex : valueExcluded (v ++ [q]) = false) :
    tryAttr attr q (attr ++ '=' :: q :: (v ++ [q])) = some [] := by
  unfold tryAttr
  rw [matchCI_refl_append, Option.some_bind, tryAttrTail, if_pos rfl, if_pos rfl,
    hex]
  rw [if_neg (by simp), takeToQuote_append_self q v hnq]
  rfl

theorem replaceAttrScan_whole (attr : List Char) (q : Char) (repl : List Char)
    (v : List Char) (hnq : q ∉ v) (hex : valueExcluded (v ++ [q]) = false) :
    replaceAttrScan attr q repl (attr ++ '=' :: q :: (v ++ [q])) = repl := by
  cases hL : attr ++ '=' :: q :: (v ++ [q]) with
  | nil =>
    exfalso
    have := congrArg List.length hL
    simp at this
  | cons c cs =>
    have hT : tryAttr attr q (c :: cs) = some [] := by
      rw [← hL]
      exact tryAttr_full_match attr q v hnq hex
    rw [replaceAttrScan_cons_match attr q repl c cs [] hT, replaceAttrScan_nil,
      List.append_nil]

theorem tryStyle_full_match (prop : List Char) (v : List Char)
    (hex : valueExcluded v = false) (hvne : v ≠ [])
    (hall : ∀ c ∈ v, styleValueChar c = true) :
    tryStyle prop (prop ++ ':' :: ' ' :: v) = some [] := by
  unfold tryStyle
  rw [matchCI_refl_append, Option.some_bind, tryStyleTail, if_pos rfl]
  have hws : (' ' :: v).dropWhile isJsSpace = v := by
    rw [List.dropWhile, (by decide : isJsSpace ' ' = true)]
    refine dropWhile_eq_self_of_all_neg isJsSpace v (fun c hc => ?_)
    have hsv := hall c hc
    unfold styleValueChar at hsv
    exact (by simpa using hsv :
      (¬c = ';' ∧ ¬c = rbraceChar) ∧ isJsSpace c = false).2
  rw [hws, hex]
  rw [if_neg (by simp), takeWhile_all_eq_self styleValueChar v hall]
  rw [if_neg hvne, dropWhile_all_eq_nil styleValueChar v hall]

theorem replaceStyleScan_whole (prop : List Char) (repl : List Char)
    (v : List Char) (hex : valueExcluded v = false) (hvne : v ≠ [])
    (hall : ∀ c ∈ v, styleValueChar c = true) :
    replaceStyleScan prop repl (prop ++ ':' :: ' ' :: v) = repl := by
  cases hL : prop ++ ':' :: ' ' :: v with
  | nil =>
    exfalso
    have := congrArg List.length hL
    simp at this
  | cons c cs =>
    have hT : tryStyle prop (c :: cs) = some [] := by
      rw [← hL]
      exact tryStyle_full_match prop v hex hvne hall
    rw [replaceStyleScan_cons_match prop repl c cs [] hT, replaceStyleScan_nil,
      List.append_nil]

theorem tryAttr_none_of_head_diff (a : Char) (attr' : List Char) (q : Char)
    (c : Char) (rest : List Char) (h : ciCharEq a c = false) :
    tryAttr (a :: attr') q (c :: rest) = none := by
  unfold tryAttr
  rw [matchCI, if_neg (by rw [h]; exact Bool.false_ne_true)]
  rfl

theorem tryStyle_none_of_head_diff (a : Char) (prop' : List Char)
    (c : Char) (rest : List Char) (h : ciCharEq a c = false) :
    tryStyle (a :: prop') (c :: rest) = none := by
  unfold tryStyle
  rw [matchCI, if_neg (by rw [h]; exact Bool.false_ne_true)]
  rfl

theorem tryAttr_none_of_excluded (attr : List Char) (q : Char) (l3 : List Char)
    (hex : valueExcluded l3 = true) :
    tryAttr attr q (attr ++ '=' :: q :: l3) = none := by
  unfold tryAttr
  rw [matchCI_refl_append, Option.some_bind, tryAttrTail, if_pos rfl, if_pos rfl,
    hex]
  rfl

theorem tryStyle_none_of_excluded (prop : List Char) (v : List Char)
    (hex : valueExcluded v = true)
    (hns : ∀ c ∈ v, isJsSpace c = false) :
    tryStyle prop (prop ++ ':' :: ' ' :: v) = none := by
  unfold tryStyle
  rw [matchCI_refl_append, Option.some_bind, tryStyleTail, if_pos rfl]
  have hws : (' ' :: v).dropWhile isJsSpace = v := by
    rw [List.dropWhile, (by decide : isJsSpace ' ' = true)]
    exact dropWhile_eq_self_of_all_neg isJsSpace v hns
  rw [hws, hex]
  rfl

theorem plain_facts (v : List Char) (hv : ∀ c ∈ v, plainValueChar c = true) :
    dqChar ∉ v ∧ sqChar ∉ v ∧ '=' ∉ v ∧ ':' ∉ v ∧
    (∀ c ∈ v, styleValueChar c = true) ∧ (∀ c ∈ v, isJsSpace c = false) := by
  have hall : ∀ c ∈ v, (((((¬c = dqChar ∧ ¬c = sqChar) ∧ ¬c = '=') ∧ ¬c = ':') ∧
      ¬c = ';') ∧ ¬c = rbraceChar) ∧ isJsSpace c = false := by
    intro c hc
    have h := hv c hc
    unfold plainValueChar at h
    simpa using h
  refine ⟨fun hm => (hall _ hm).1.1.1.1.1.1 rfl, fun hm => (hall _ hm).1.1.1.1.1.2 rfl,
    fun hm => (hall _ hm).1.1.1.1.2 rfl, fun hm => (hall _ hm).1.1.1.2 rfl, ?_, ?_⟩
  · intro c hc
    obtain ⟨⟨⟨⟨⟨⟨_, _⟩, _⟩, _⟩, h5⟩, h6⟩, h7⟩ := hall c hc
    unfold styleValueChar
    simp [h5, h6, h7]
  · intro c hc
    exact (hall c hc).2

theorem replaceAttrScan_id_of_tails (attr : List Char) (q : Char) (repl : List Char) :
    ∀ l, (∀ t ∈ l.tails, tryAttr attr q t = none) →
      replaceAttrScan attr q repl l = l := by
  intro l
  induction l with
  | nil => intro _; exact replaceAttrScan_nil attr q repl
  | cons c cs ih =>
    intro h
    have h0 : tryAttr attr q (c :: cs) = none := h (c :: cs) (by simp)
    rw [replaceAttrScan_cons_nomatch attr q repl c cs h0]
    rw [ih (fun t ht => h t (by rw [List.tails_cons]; exact List.mem_cons_of_mem _ ht))]

theorem replaceStyleScan_id_of_tails (prop : List Char) (repl : List Char) :
    ∀ l, (∀ t ∈ l.tails, tryStyle prop t = none) →
      replaceStyleScan prop repl l = l := by
  intro l
  induction l with
  | nil => intro _; exact replaceStyleScan_nil prop repl
  | cons c cs ih =>
    intro h
    have h0 : tryStyle prop (c :: cs) = none := h (c :: cs) (by simp)
    rw [replaceStyleScan_cons_nomatch prop repl c cs h0]
    rw [ih (fun t ht => h t (by rw [List.tails_cons]; exact List.mem_cons_of_mem _ ht))]

theorem replaceAttrScan_match_head (attr : List Char) (q : Char) (repl : List Char)
    (l rest : List Char) (h : tryAttr attr q l = some rest) :
    replaceAttrScan attr q repl l = repl ++ replaceAttrScan attr q repl rest := by
  cases l with
  | nil =>
    exfalso
    cases attr with
    | nil => simp [tryAttr, matchCI, tryAttrTail] at h
    | cons a as => simp [tryAttr, matchCI] at h
  | cons c cs => exact replaceAttrScan_cons_match attr q repl c cs rest h

theorem replaceStyleScan_match_head (prop : List Char) (repl : List Char)
    (l rest : List Char) (h : tryStyle prop l = some rest) :
    replaceStyleScan prop repl l = repl ++ replaceStyleScan prop repl rest := by
  cases l with
  | nil =>
    exfalso
    cases prop with
    | nil => simp [tryStyle, matchCI, tryStyleTail] at h
    | cons a as => simp [tryStyle, matchCI] at h
  | cons c cs => exact replaceStyleScan_cons_match prop repl c cs rest h

theorem char_not_mem_cons (x c : Char) (l : List Char) (h1 : ¬x = c)
    (h2 : x ∉ l) : x ∉ c :: l := by
  intro hm
  rcases List.mem_cons.mp hm with h | h
  · exact h1 h
  · exact h2 h

theorem char_not_mem_append (x : Char) (l1 l2 : List Char) (h1 : x ∉ l1)
    (h2 : x ∉ l2) : x ∉ l1 ++ l2 := by
  intro hm
  rcases List.mem_append.mp hm with h | h
  · exact h1 h
  · exact h2 h

theorem tryAttr_fill_none_head (q c : Char) (rest : List Char)
    (h : ciCharEq 'f' c = false) : tryAttr fillP q (c :: rest) = none :=
  tryAttr_none_of_head_diff 'f' ['i', 'l', 'l'] q c rest h

theorem tryAttr_stroke_none_head (q c : Char) (rest : List Char)
    (h : ciCharEq 's' c = false) : tryAttr strokeP q (c :: rest) = none :=
  tryAttr_none_of_head_diff 's' ['t', 'r', 'o', 'k', 'e'] q c rest h

theorem tryStyle_fill_none_head (c : Char) (rest : List Char)
    (h : ciCharEq 'f' c = false) : tryStyle fillP (c :: rest) = none :=
  tryStyle_none_of_head_diff 'f' ['i', 'l', 'l'] c rest h

theorem tryStyle_stroke_none_head (c : Char) (rest : List Char)
    (h : ciCharEq 's' c = false) : tryStyle strokeP (c :: rest) = none :=
  tryStyle_none_of_head_diff 's' ['t', 'r', 'o', 'k', 'e'] c rest h

theorem valueExcluded_mono_append (v w : List Char)
    (h : valueExcluded v = true) : valueExcluded (v ++ w) = true := by
  unfold valueExcluded at h ⊢
  rcases Bool.or_eq_true_iff.mp h with h1 | h1
  · rw [ciLeads_mono_append _ _ _ h1]
    rfl
  · rw [ciLeads_mono_append _ _ _ h1]
    simp

theorem convert_fill_dq (v : String) (hv : ∀ c ∈ v.data, plainValueChar c = true)
    (hex : valueExcluded v.data = false) :
    convertToCurrentColor ("fill=\"" ++ v ++ "\"") = "fill=\"currentColor\"" := by
  obtain ⟨hdq, hsq, heq, hco, hsty, hws⟩ := plain_facts v.data hv
  have hdata : ("fill=\"" ++ v ++ "\"").data =
      fillP ++ '=' :: dqChar :: (v.data ++ [dqChar]) := by
    have h1 : "fill=\"".data = fillP ++ ['=', dqChar] := rfl
    have h2 : "\"".data = [dqChar] := rfl
    rw [String.data_append, String.data_append, h1, h2]
    simp
  have hexq : valueExcluded (v.data ++ [dqChar]) = false :=
    valueExcluded_append_quote v.data dqChar (by decide) (by decide) hex
  unfold convertToCurrentColor convertLC
  rw [hdata, replaceAttrScan_whole fillP dqChar _ v.data hdq hexq]
  rw [replaceAttrScan_id_of_tails strokeP dqChar _ _ (by decide)]
  rw [replaceAttrScan_id_of_tails fillP sqChar _ _ (by decide)]
  rw [replaceAttrScan_id_of_tails strokeP sqChar _ _ (by decide)]
  rw [replaceStyleScan_id_of_tails fillP _ _ (by decide)]
  rw [replaceStyleScan_id_of_tails strokeP _ _ (by decide)]

theorem convert_stroke_dq (v : String) (hv : ∀ c ∈ v.data, plainValueChar c = true)
    (hex : valueExcluded v.data = false) :
    convertToCurrentColor ("stroke=\"" ++ v ++ "\"") = "stroke=\"currentColor\"" := by
  obtain ⟨hdq, hsq, heq, hco, hsty, hws⟩ := plain_facts v.data hv
  have hdata : ("stroke=\"" ++ v ++ "\"").data =
      strokeP ++ '=' :: dqChar :: (v.data ++ [dqChar]) := by
    have h1 : "stroke=\"".data = strokeP ++ ['=', dqChar] := rfl
    have h2 : "\"".data = [dqChar] := rfl
    rw [String.data_append, String.data_append, h1, h2]
    simp
  have hexq : valueExcluded (v.data ++ [dqChar]) = false :=
    valueExcluded_append_quote v.data dqChar (by decide) (by decide) hex
  have hneq : '=' ∉ v.data ++ [dqChar] :=
    char_not_mem_append '=' v.data [dqChar] heq (by decide)
  have hp1 : replaceAttrScan fillP dqChar "fill=\"currentColor\"".data
      (strokeP ++ '=' :: dqChar :: (v.data ++ [dqChar])) =
      strokeP ++ '=' :: dqChar :: (v.data ++ [dqChar]) := by
    show replaceAttrScan fillP dqChar "fill=\"currentColor\"".data
      ('s' :: 't' :: 'r' :: 'o' :: 'k' :: 'e' :: '=' :: dqChar ::
        (v.data ++ [dqChar])) = 's' :: 't' :: 'r' :: 'o' :: 'k' :: 'e' :: '=' ::
        dqChar :: (v.data ++ [dqChar])
    rw [replaceAttrScan_cons_nomatch _ _ _ _ _
        (tryAttr_fill_none_head dqChar 's' _ (by decide)),
      replaceAttrScan_cons_nomatch _ _ _ _ _
        (tryAttr_fill_none_head dqChar 't' _ (by decide)),
      replaceAttrScan_cons_nomatch _ _ _ _ _
        (tryAttr_fill_none_head dqChar 'r' _ (by decide)),
      replaceAttrScan_cons_nomatch _ _ _ _ _
        (tryAttr_fill_none_head dqChar 'o' _ (by decide)),
      replaceAttrScan_cons_nomatch _ _ _ _ _
        (tryAttr_fill_none_head dqChar 'k' _ (by decide)),
      replaceAttrScan_cons_nomatch _ _ _ _ _
        (tryAttr_fill_none_head dqChar 'e' _ (by decide)),
      replaceAttrScan_cons_nomatch _ _ _ _ _
        (tryAttr_fill_none_head dqChar '=' _ (by decide)),
      replaceAttrScan_cons_nomatch _ _ _ _ _
        (tryAttr_fill_none_head dqChar dqChar _ (by decide)),
      replaceAttrScan_id_of_not_mem_eq fillP dqChar _ _ hneq]
  unfold convertToCurrentColor convertLC
  rw [hdata, hp1, replaceAttrScan_whole strokeP dqChar _ v.data hdq hexq]
  rw [replaceAttrScan_id_of_tails fillP sqChar _ _ (by decide)]
  rw [replaceAttrScan_id_of_tails strokeP sqChar _ _ (by decide)]
  rw [replaceStyleScan_id_of_tails fillP _ _ (by decide)]
  rw [replaceStyleScan_id_of_tails strokeP _ _ (by decide)]

theorem convert_fill_sq (v : String) (hv : ∀ c ∈ v.data, plainValueChar c = true)
    (hex : valueExcluded v.data = false) :
    convertToCurrentColor ("fill='" ++ v ++ "'") = "fill='currentColor'" := by
  obtain ⟨hdq, hsq, heq, hco, hsty, hws⟩ := plain_facts v.data hv
  have hdata : ("fill='" ++ v ++ "'").data =
      fillP ++ '=' :: sqChar :: (v.data ++ [sqChar]) := by
    have h1 : "fill='".data = fillP ++ ['=', sqChar] := rfl
    have h2 : "'".data = [sqChar] := rfl
    rw [String.data_append, String.data_append, h1, h2]
    simp
  have hexq : valueExcluded (v.data ++ [sqChar]) = false :=
    valueExcluded_append_quote v.data sqChar (by decide) (by decide) hex
  have hnotdq : dqChar ∉ fillP ++ '=' :: sqChar :: (v.data ++ [sqChar]) :=
    char_not_mem_append dqChar fillP _ (by decide)
      (char_not_mem_cons dqChar '=' _ (by decide)
        (char_not_mem_cons dqChar sqChar _ (by decide)
          (char_not_mem_append dqChar v.data [sqChar] hdq (by decide))))
  unfold convertToCurrentColor convertLC
  rw [hdata,
    replaceAttrScan_id_of_not_mem_q fillP dqChar _ _ hnotdq,
    replaceAttrScan_id_of_not_mem_q strokeP dqChar _ _ hnotdq,
    replaceAttrScan_whole fillP sqChar _ v.data hsq hexq]
  rw [replaceAttrScan_id_of_tails strokeP sqChar _ _ (by decide)]
  rw [replaceStyleScan_id_of_tails fillP _ _ (by decide)]
  rw [replaceStyleScan_id_of_tails strokeP _ _ (by decide)]

theorem convert_stroke_sq (v : String) (hv : ∀ c ∈ v.data, plainValueChar c = true)
    (hex : valueExcluded v.data = false) :
    convertToCurrentColor ("stroke='" ++ v ++ "'") = "stroke='currentColor'" := by
  obtain ⟨hdq, hsq, heq, hco, hsty, hws⟩ := plain_facts v.data hv
  have hdata : ("stroke='" ++ v ++ "'").data =
      strokeP ++ '=' :: sqChar :: (v.data ++ [sqChar]) := by
    have h1 : "stroke='".data = strokeP ++ ['=', sqChar] := rfl
    have h2 : "'".data = [sqChar] := rfl
    rw [String.data_append, String.data_append, h1, h2]
    simp
  have hexq : valueExcluded (v.data ++ [sqChar]) = false :=
    valueExcluded_append_quote v.data sqChar (by decide) (by decide) hex
  have hneq : '=' ∉ v.data ++ [sqChar] :=
    char_not_mem_append '=' v.data [sqChar] heq (by decide)
  have hnotdq : dqChar ∉ strokeP ++ '=' :: sqChar :: (v.data ++ [sqChar]) :=
    char_not_mem_append dqChar strokeP _ (by decide)
      (char_not_mem_cons dqChar '=' _ (by decide)
        (char_not_mem_cons dqChar sqChar _ (by decide)
          (char_not_mem_append dqChar v.data [sqChar] hdq (by decide))))
  have hp3 : replaceAttrScan fillP sqChar "fill='currentColor'".data
      (strokeP ++ '=' :: sqChar :: (v.data ++ [sqChar])) =
      strokeP ++ '=' :: sqChar :: (v.data ++ [sqChar]) := by
    show replaceAttrScan fillP sqChar "fill='currentColor'".data
      ('s' :: 't' :: 'r' :: 'o' :: 'k' :: 'e' :: '=' :: sqChar ::
        (v.data ++ [sqChar])) = 's' :: 't' :: 'r' :: 'o' :: 'k' :: 'e' :: '=' ::
        sqChar :: (v.data ++ [sqChar])
    rw [replaceAttrScan_cons_nomatch _ _ _ _ _
        (tryAttr_fill_none_head sqChar 's' _ (by decide)),
      replaceAttrScan_cons_nomatch _ _ _ _ _
        (tryAttr_fill_none_head sqChar 't' _ (by decide)),
      replaceAttrScan_cons_nomatch _ _ _ _ _
        (tryAttr_fill_none_head sqChar 'r' _ (by decide)),
      replaceAttrScan_cons_nomatch _ _ _ _ _
        (tryAttr_fill_none_head sqChar 'o' _ (by decide)),
      replaceAttrScan_cons_nomatch _ _ _ _ _
        (tryAttr_fill_none_head sqChar 'k' _ (by decide)),
      replaceAttrScan_cons_nomatch _ _ _ _ _
        (tryAttr_fill_none_head sqChar 'e' _ (by decide)),
      replaceAttrScan_cons_nomatch _ _ _ _ _
        (tryAttr_fill_none_head sqChar '=' _ (by decide)),
      replaceAttrScan_cons_nomatch _ _ _ _ _
        (tryAttr_fill_none_head sqChar sqChar _ (by decide)),
      replaceAttrScan_id_of_not_mem_eq fillP sqChar _ _ hneq]
  unfold convertToCurrentColor convertLC
  rw [hdata,
    replaceAttrScan_id_of_not_mem_q fillP dqChar _ _ hnotdq,
    replaceAttrScan_id_of_not_mem_q strokeP dqChar _ _ hnotdq,
    hp3, replaceAttrScan_whole strokeP sqChar _ v.data hsq hexq]
  rw [replaceStyleScan_id_of_tails fillP _ _ (by decide)]
  rw [replaceStyleScan_id_of_tails strokeP _ _ (by decide)]

theorem convert_fill_style (v : String) (hvne : v.data ≠ [])
    (hv : ∀ c ∈ v.data, plainValueChar c = true)
    (hex : valueExcluded v.data = false) :
    convertToCurrentColor ("fill: " ++ v) = "fill: currentColor" := by
  obtain ⟨hdq, hsq, heq, hco, hsty, hws⟩ := plain_facts v.data hv
  have hdata : ("fill: " ++ v).data = fillP ++ ':' :: ' ' :: v.data := by
    have h1 : "fill: ".data = fillP ++ [':', ' '] := rfl
    rw [String.data_append, h1]
    simp
  have hnotdq : dqChar ∉ fillP ++ ':' :: ' ' :: v.data :=
    char_not_mem_append dqChar fillP _ (by decide)
      (char_not_mem_cons dqChar ':' _ (by decide)
        (char_not_mem_cons dqChar ' ' _ (by decide) hdq))
  have hnotsq : sqChar ∉ fillP ++ ':' :: ' ' :: v.data :=
    char_not_mem_append sqChar fillP _ (by decide)
      (char_not_mem_cons sqChar ':' _ (by decide)
        (char_not_mem_cons sqChar ' ' _ (by decide) hsq))
  unfold convertToCurrentColor convertLC
  rw [hdata,
    replaceAttrScan_id_of_not_mem_q fillP dqChar _ _ hnotdq,
    replaceAttrScan_id_of_not_mem_q strokeP dqChar _ _ hnotdq,
    replaceAttrScan_id_of_not_mem_q fillP sqChar _ _ hnotsq,
    replaceAttrScan_id_of_not_mem_q strokeP sqChar _ _ hnotsq,
    replaceStyleScan_whole fillP _ v.data hex hvne hsty]
  rw [replaceStyleScan_id_of_tails strokeP _ _ (by decide)]

theorem convert_stroke_style (v : String) (hvne : v.data ≠ [])
    (hv : ∀ c ∈ v.data, plainValueChar c = true)
    (hex : valueExcluded v.data = false) :
    convertToCurrentColor ("stroke: " ++ v) = "stroke: currentColor" := by
  obtain ⟨hdq, hsq, heq, hco, hsty, hws⟩ := plain_facts v.data hv
  have hdata : ("stroke: " ++ v).data = strokeP ++ ':' :: ' ' :: v.data := by
    have h1 : "stroke: ".data = strokeP ++ [':', ' '] := rfl
    rw [String.data_append, h1]
    simp
  have hnotdq : dqChar ∉ strokeP ++ ':' :: ' ' :: v.data :=
    char_not_mem_append dqChar strokeP _ (by decide)
      (char_not_mem_cons dqChar ':' _ (by decide)
        (char_not_mem_cons dqChar ' ' _ (by decide) hdq))
  have hnotsq : sqChar ∉ strokeP ++ ':' :: ' ' :: v.data :=
    char_not_mem_append sqChar strokeP _ (by decide)
      (char_not_mem_cons sqChar ':' _ (by decide)
        (char_not_mem_cons sqChar ' ' _ (by decide) hsq))
  have hp5 : replaceStyleScan fillP "fill: currentColor".data
      (strokeP ++ ':' :: ' ' :: v.data) = strokeP ++ ':' :: ' ' :: v.data := by
    show replaceStyleScan fillP "fill: currentColor".data
      ('s' :: 't' :: 'r' :: 'o' :: 'k' :: 'e' :: ':' :: ' ' :: v.data) =
      's' :: 't' :: 'r' :: 'o' :: 'k' :: 'e' :: ':' :: ' ' :: v.data
    rw [replaceStyleScan_cons_nomatch _ _ _ _
        (tryStyle_fill_none_head 's' _ (by decide)),
      replaceStyleScan_cons_nomatch _ _ _ _
        (tryStyle_fill_none_head 't' _ (by decide)),
      replaceStyleScan_cons_nomatch _ _ _ _
        (tryStyle_fill_none_head 'r' _ (by decide)),
      replaceStyleScan_cons_nomatch _ _ _ _
        (tryStyle_fill_none_head 'o' _ (by decide)),
      replaceStyleScan_cons_nomatch _ _ _ _
        (tryStyle_fill_none_head 'k' _ (by decide)),
      replaceStyleScan_cons_nomatch _ _ _ _
        (tryStyle_fill_none_head 'e' _ (by decide)),
      replaceStyleScan_cons_nomatch _ _ _ _
        (tryStyle_fill_none_head ':' _ (by decide)),
      replaceStyleScan_cons_nomatch _ _ _ _
        (tryStyle_fill_none_head ' ' _ (by decide)),
      replaceStyleScan_id_of_not_mem_colon fillP _ _ hco]
  unfold convertToCurrentColor convertLC
  rw [hdata,
    replaceAttrScan_id_of_not_mem_q fillP dqChar _ _ hnotdq,
    replaceAttrScan_id_of_not_mem_q strokeP dqChar _ _ hnotdq,
    replaceAttrScan_id_of_not_mem_q fillP sqChar _ _ hnotsq,
    replaceAttrScan_id_of_not_mem_q strokeP sqChar _ _ hnotsq,
    hp5, replaceStyleScan_whole strokeP _ v.data hex hvne hsty]

/-- C4: `convertToCurrentColor` rewrites every explicit fill/stroke color
directive to the inherit-color directive `currentColor` — attribute form
and inline-style form, double- and single-quoted, case-insensitively (the
mixed-case instance) — for every value built from ordinary color-value
characters that does not begin (case-insensitively) with `none` or
`transparent`; and it leaves `none`/`transparent` values unchanged in all
those forms. -/
theorem c4_normalize_rewrites_directives (v : String) (hvne : v.data ≠ [])
    (hv : ∀ c ∈ v.data, plainValueChar c = true)
    (hex : valueExcluded v.data = false) :
    convertToCurrentColor ("fill=\"" ++ v ++ "\"") = "fill=\"currentColor\"" ∧
    convertToCurrentColor ("stroke=\"" ++ v ++ "\"") = "stroke=\"currentColor\"" ∧
    convertToCurrentColor ("fill='" ++ v ++ "'") = "fill='currentColor'" ∧
    convertToCurrentColor ("stroke='" ++ v ++ "'") = "stroke='currentColor'" ∧
    convertToCurrentColor ("fill: " ++ v) = "fill: currentColor" ∧
    convertToCurrentColor ("stroke: " ++ v) = "stroke: currentColor" ∧
    convertToCurrentColor "FiLl=\"#ff0000\"" = "fill=\"currentColor\"" ∧
    convertToCurrentColor "fill=\"none\"" = "fill=\"none\"" ∧
    convertToCurrentColor "fill=\"transparent\"" = "fill=\"transparent\"" ∧
    convertToCurrentColor "fill=\"NONE\"" = "fill=\"NONE\"" ∧
    convertToCurrentColor "stroke='none'" = "stroke='none'" ∧
    convertToCurrentColor "fill: none" = "fill: none" ∧
    convertToCurrentColor "stroke: transparent" = "stroke: transparent" := by
  refine ⟨convert_fill_dq v hv hex, convert_stroke_dq v hv hex,
    convert_fill_sq v hv hex, convert_stroke_sq v hv hex,
    convert_fill_style v hvne hv hex, convert_stroke_style v hvne hv hex,
    ?_, ?_, ?_, ?_, ?_, ?_, ?_⟩
  · unfold convertToCurrentColor convertLC
    rw [replaceAttrScan_match_head fillP dqChar _ _ [] (by decide),
      replaceAttrScan_nil, List.append_nil,
      replaceAttrScan_id_of_tails strokeP dqChar _ _ (by decide),
      replaceAttrScan_id_of_tails fillP sqChar _ _ (by decide),
      replaceAttrScan_id_of_tails strokeP sqChar _ _ (by decide),
      replaceStyleScan_id_of_tails fillP _ _ (by decide),
      replaceStyleScan_id_of_tails strokeP _ _ (by decide)]
  · unfold convertToCurrentColor convertLC
    rw [replaceAttrScan_id_of_tails fillP dqChar _ _ (by decide),
      replaceAttrScan_id_of_tails strokeP dqChar _ _ (by decide),
      replaceAttrScan_id_of_tails fillP sqChar _ _ (by decide),
      replaceAttrScan_id_of_tails strokeP sqChar _ _ (by decide),
      replaceStyleScan_id_of_tails fillP _ _ (by decide),
      replaceStyleScan_id_of_tails strokeP _ _ (by decide)]
  · unfold convertToCurrentColor convertLC
    rw [replaceAttrScan_id_of_tails fillP dqChar _ _ (by decide),
      replaceAttrScan_id_of_tails strokeP dqChar _ _ (by decide),
      replaceAttrScan_id_of_tails fillP sqChar _ _ (by decide),
      replaceAttrScan_id_of_tails strokeP sqChar _ _ (by decide),
      replaceStyleScan_id_of_tails fillP _ _ (by decide),
      replaceStyleScan_id_of_tails strokeP _ _ (by decide)]
  · unfold convertToCurrentColor convertLC
    rw [replaceAttrScan_id_of_tails fillP dqChar _ _ (by decide),
      replaceAttrScan_id_of_tails strokeP dqChar _ _ (by decide),
      replaceAttrScan_id_of_tails fillP sqChar _ _ (by decide),
      replaceAttrScan_id_of_tails strokeP sqChar _ _ (by decide),
      replaceStyleScan_id_of_tails fillP _ _ (by decide),
      replaceStyleScan_id_of_tails strokeP _ _ (by decide)]
  · unfold convertToCurrentColor convertLC
    rw [replaceAttrScan_id_of_tails fillP dqChar _ _ (by decide),
      replaceAttrScan_id_of_tails strokeP dqChar _ _ (by decide),
      replaceAttrScan_id_of_tails fillP sqChar _ _ (by decide),
      replaceAttrScan_id_of_tails strokeP sqChar _ _ (by decide),
      replaceStyleScan_id_of_tails fillP _ _ (by decide),
      replaceStyleScan_id_of_tails strokeP _ _ (by decide)]
  · unfold convertToCurrentColor convertLC
    rw [replaceAttrScan_id_of_tails fillP dqChar _ _ (by decide),
      replaceAttrScan_id_of_tails strokeP dqChar _ _ (by decide),
      replaceAttrScan_id_of_tails fillP sqChar _ _ (by decide),
      replaceAttrScan_id_of_tails strokeP sqChar _ _ (by decide),
      replaceStyleScan_id_of_tails fillP _ _ (by decide),
      replaceStyleScan_id_of_tails strokeP _ _ (by decide)]
  · unfold convertToCurrentColor convertLC
    rw [replaceAttrScan_id_of_tails fillP dqChar _ _ (by decide),
      replaceAttrScan_id_of_tails strokeP dqChar _ _ (by decide),
      replaceAttrScan_id_of_tails fillP sqChar _ _ (by decide),
      replaceAttrScan_id_of_tails strokeP sqChar _ _ (by decide),
      replaceStyleScan_id_of_tails fillP _ _ (by decide),
      replaceStyleScan_id_of_tails strokeP _ _ (by decide)]

theorem c4_normalize_rewrites_directives_witness :
    ("#ff0000".data ≠ [] ∧ valueExcluded "#ff0000".data = false) ∧
    convertToCurrentColor ("fill=\"" ++ "#ff0000" ++ "\"") = "fill=\"currentColor\"" ∧
    convertToCurrentColor ("fill: " ++ "#ff0000") = "fill: currentColor" := by
  have h := c4_normalize_rewrites_directives "#ff0000" (by decide) (by decide)
    (by decide)
  exact ⟨⟨by decide, by decide⟩, h.1, h.2.2.2.2.1⟩

theorem convert_prefix_excluded_attr (v : String)
    (hv : ∀ c ∈ v.data, plainValueChar c = true)
    (hex2 : valueExcluded v.data = true) :
    convertToCurrentColor ("fill=\"" ++ v ++ "\"") = "fill=\"" ++ v ++ "\"" := by
  obtain ⟨hdq, hsq, heq, hco, hsty, hws⟩ := plain_facts v.data hv
  have hdata : ("fill=\"" ++ v ++ "\"").data =
      fillP ++ '=' :: dqChar :: (v.data ++ [dqChar]) := by
    have h1 : "fill=\"".data = fillP ++ ['=', dqChar] := rfl
    have h2 : "\"".data = [dqChar] := rfl
    rw [String.data_append, String.data_append, h1, h2]
    simp
  have hexq2 : valueExcluded (v.data ++ [dqChar]) = true :=
    valueExcluded_mono_append v.data [dqChar] hex2
  have hneq : '=' ∉ v.data ++ [dqChar] :=
    char_not_mem_append '=' v.data [dqChar] heq (by decide)
  have hp1 : replaceAttrScan fillP dqChar "fill=\"currentColor\"".data
      (fillP ++ '=' :: dqChar :: (v.data ++ [dqChar])) =
      fillP ++ '=' :: dqChar :: (v.data ++ [dqChar]) := by
    show replaceAttrScan fillP dqChar "fill=\"currentColor\"".data
      ('f' :: 'i' :: 'l' :: 'l' :: '=' :: dqChar :: (v.data ++ [dqChar])) =
      'f' :: 'i' :: 'l' :: 'l' :: '=' :: dqChar :: (v.data ++ [dqChar])
    rw [replaceAttrScan_cons_nomatch _ _ _ _ _
        (show tryAttr fillP dqChar ('f' :: 'i' :: 'l' :: 'l' :: '=' :: dqChar ::
            (v.data ++ [dqChar])) = none from
          tryAttr_none_of_excluded fillP dqChar (v.data ++ [dqChar]) hexq2),
      replaceAttrScan_cons_nomatch _ _ _ _ _
        (tryAttr_fill_none_head dqChar 'i' _ (by decide)),
      replaceAttrScan_cons_nomatch _ _ _ _ _
        (tryAttr_fill_none_head dqChar 'l' _ (by decide)),
      replaceAttrScan_cons_nomatch _ _ _ _ _
        (tryAttr_fill_none_head dqChar 'l' _ (by decide)),
      replaceAttrScan_cons_nomatch _ _ _ _ _
        (tryAttr_fill_none_head dqChar '=' _ (by decide)),
      replaceAttrScan_cons_nomatch _ _ _ _ _
        (tryAttr_fill_none_head dqChar dqChar _ (by decide)),
      replaceAttrScan_id_of_not_mem_eq fillP dqChar _ _ hneq]
  have hp2 : replaceAttrScan strokeP dqChar "stroke=\"currentColor\"".data
      (fillP ++ '=' :: dqChar :: (v.data ++ [dqChar])) =
      fillP ++ '=' :: dqChar :: (v.data ++ [dqChar]) := by
    show replaceAttrScan strokeP dqChar "stroke=\"currentColor\"".data
      ('f' :: 'i' :: 'l' :: 'l' :: '=' :: dqChar :: (v.data ++ [dqChar])) =
      'f' :: 'i' :: 'l' :: 'l' :: '=' :: dqChar :: (v.data ++ [dqChar])
    rw [replaceAttrScan_cons_nomatch _ _ _ _ _
        (tryAttr_stroke_none_head dqChar 'f' _ (by decide)),
      replaceAttrScan_cons_nomatch _ _ _ _ _
        (tryAttr_stroke_none_head dqChar 'i' _ (by decide)),
      replaceAttrScan_cons_nomatch _ _ _ _ _
        (tryAttr_stroke_none_head dqChar 'l' _ (by decide)),
      replaceAttrScan_cons_nomatch _ _ _ _ _
        (tryAttr_stroke_none_head dqChar 'l' _ (by decide)),
      replaceAttrScan_cons_nomatch _ _ _ _ _
        (tryAttr_stroke_none_head dqChar '=' _ (by decide)),
      replaceAttrScan_cons_nomatch _ _ _ _ _
        (tryAttr_stroke_none_head dqChar dqChar _ (by decide)),
      replaceAttrScan_id_of_not_mem_eq strokeP dqChar _ _ hneq]
  have hnotsq : sqChar ∉ fillP ++ '=' :: dqChar :: (v.data ++ [dqChar]) :=
    char_not_mem_append sqChar fillP _ (by decide)
      (char_not_mem_cons sqChar '=' _ (by decide)
        (char_not_mem_cons sqChar dqChar _ (by decide)
          (char_not_mem_append sqChar v.data [dqChar] hsq (by decide))))
  have hnotco : ':' ∉ fillP ++ '=' :: dqChar :: (v.data ++ [dqChar]) :=
    char_not_mem_append ':' fillP _ (by decide)
      (char_not_mem_cons ':' '=' _ (by decide)
        (char_not_mem_cons ':' dqChar _ (by decide)
          (char_not_mem_append ':' v.data [dqChar] hco (by decide))))
  unfold convertToCurrentColor convertLC
  rw [hdata, hp1, hp2,
    replaceAttrScan_id_of_not_mem_q fillP sqChar _ _ hnotsq,
    replaceAttrScan_id_of_not_mem_q strokeP sqChar _ _ hnotsq,
    replaceStyleScan_id_of_not_mem_colon fillP _ _ hnotco,
    replaceStyleScan_id_of_not_mem_colon strokeP _ _ hnotco, ← hdata]

theorem convert_prefix_excluded_style (v : String)
    (hv : ∀ c ∈ v.data, plainValueChar c = true)
    (hex2 : valueExcluded v.data = true) :
    convertToCurrentColor ("fill: " ++ v) = "fill: " ++ v := by
  obtain ⟨hdq, hsq, heq, hco, hsty, hws⟩ := plain_facts v.data hv
  have hdata : ("fill: " ++ v).data = fillP ++ ':' :: ' ' :: v.data := by
    have h1 : "fill: ".data = fillP ++ [':', ' '] := rfl
    rw [String.data_append, h1]
    simp
  have hnotdq : dqChar ∉ fillP ++ ':' :: ' ' :: v.data :=
    char_not_mem_append dqChar fillP _ (by decide)
      (char_not_mem_cons dqChar ':' _ (by decide)
        (char_not_mem_cons dqChar ' ' _ (by decide) hdq))
  have hnotsq : sqChar ∉ fillP ++ ':' :: ' ' :: v.data :=
    char_not_mem_append sqChar fillP _ (by decide)
      (char_not_mem_cons sqChar ':' _ (by decide)
        (char_not_mem_cons sqChar ' ' _ (by decide) hsq))
  have hp5 : replaceStyleScan fillP "fill: currentColor".data
      (fillP ++ ':' :: ' ' :: v.data) = fillP ++ ':' :: ' ' :: v.data := by
    show replaceStyleScan fillP "fill: currentColor".data
      ('f' :: 'i' :: 'l' :: 'l' :: ':' :: ' ' :: v.data) =
      'f' :: 'i' :: 'l' :: 'l' :: ':' :: ' ' :: v.data
    rw [replaceStyleScan_cons_nomatch _ _ _ _
        (show tryStyle fillP ('f' :: 'i' :: 'l' :: 'l' :: ':' :: ' ' :: v.data) =
            none from tryStyle_none_of_excluded fillP v.data hex2 hws),
      replaceStyleScan_cons_nomatch _ _ _ _
        (tryStyle_fill_none_head 'i' _ (by decide)),
      replaceStyleScan_cons_nomatch _ _ _ _
        (tryStyle_fill_none_head 'l' _ (by decide)),
      replaceStyleScan_cons_nomatch _ _ _ _
        (tryStyle_fill_none_head 'l' _ (by decide)),
      replaceStyleScan_cons_nomatch _ _ _ _
        (tryStyle_fill_none_head ':' _ (by decide)),
      replaceStyleScan_cons_nomatch _ _ _ _
        (tryStyle_fill_none_head ' ' _ (by decide)),
      replaceStyleScan_id_of_not_mem_colon fillP _ _ hco]
  have hp6 : replaceStyleScan strokeP "stroke: currentColor".data
      (fillP ++ ':' :: ' ' :: v.data) = fillP ++ ':' :: ' ' :: v.data := by
    show replaceStyleScan strokeP "stroke: currentColor".data
      ('f' :: 'i' :: 'l' :: 'l' :: ':' :: ' ' :: v.data) =
      'f' :: 'i' :: 'l' :: 'l' :: ':' :: ' ' :: v.data
    rw [replaceStyleScan_cons_nomatch _ _ _ _
        (tryStyle_stroke_none_head 'f' _ (by decide)),
      replaceStyleScan_cons_nomatch _ _ _ _
        (tryStyle_stroke_none_head 'i' _ (by decide)),
      replaceStyleScan_cons_nomatch _ _ _ _
        (tryStyle_stroke_none_head 'l' _ (by decide)),
      replaceStyleScan_cons_nomatch _ _ _ _
        (tryStyle_stroke_none_head 'l' _ (by decide)),
      replaceStyleScan_cons_nomatch _ _ _ _
        (tryStyle_stroke_none_head ':' _ (by decide)),
      replaceStyleScan_cons_nomatch _ _ _ _
        (tryStyle_stroke_none_head ' ' _ (by decide)),
      replaceStyleScan_id_of_not_mem_colon strokeP _ _ hco]
  unfold convertToCurrentColor convertLC
  rw [hdata,
    replaceAttrScan_id_of_not_mem_q fillP dqChar _ _ hnotdq,
    replaceAttrScan_id_of_not_mem_q strokeP dqChar _ _ hnotdq,
    replaceAttrScan_id_of_not_mem_q fillP sqChar _ _ hnotsq,
    replaceAttrScan_id_of_not_mem_q strokeP sqChar _ _ hnotsq,
    hp5, hp6, ← hdata]

/-- C10: the `(?!none|transparent)` exclusion is a prefix test, not an
exact-value match: a fill/stroke directive whose value merely begins
(case-insensitively) with `none` or `transparent` is left unchanged, even
when the full value is some other string (`fill="nonecolor"` is not
rewritten), in attribute and inline-style form alike. -/
theorem c10_prefix_exclusion (v : String)
    (hv : ∀ c ∈ v.data, plainValueChar c = true)
    (hpre : ciLeads "none".data v.data = true ∨
      ciLeads "transparent".data v.data = true) :
    convertToCurrentColor ("fill=\"" ++ v ++ "\"") = "fill=\"" ++ v ++ "\"" ∧
    convertToCurrentColor ("fill: " ++ v) = "fill: " ++ v ∧
    convertToCurrentColor "fill=\"nonecolor\"" = "fill=\"nonecolor\"" ∧
    convertToCurrentColor "stroke: transparentish" = "stroke: transparentish" := by
  have hex2 : valueExcluded v.data = true := by
    unfold valueExcluded
    rcases hpre with h | h
    · rw [h]
      rfl
    · rw [h]
      simp
  refine ⟨convert_prefix_excluded_attr v hv hex2,
    convert_prefix_excluded_style v hv hex2, ?_, ?_⟩
  · unfold convertToCurrentColor convertLC
    rw [replaceAttrScan_id_of_tails fillP dqChar _ _ (by decide),
      replaceAttrScan_id_of_tails strokeP dqChar _ _ (by decide),
      replaceAttrScan_id_of_tails fillP sqChar _ _ (by decide),
      replaceAttrScan_id_of_tails strokeP sqChar _ _ (by decide),
      replaceStyleScan_id_of_tails fillP _ _ (by decide),
      replaceStyleScan_id_of_tails strokeP _ _ (by decide)]
  · unfold convertToCurrentColor convertLC
    rw [replaceAttrScan_id_of_tails fillP dqChar _ _ (by decide),
      replaceAttrScan_id_of_tails strokeP dqChar _ _ (by decide),
      replaceAttrScan_id_of_tails fillP sqChar _ _ (by decide),
      replaceAttrScan_id_of_tails strokeP sqChar _ _ (by decide),
      replaceStyleScan_id_of_tails fillP _ _ (by decide),
      replaceStyleScan_id_of_tails strokeP _ _ (by decide)]

theorem c10_prefix_exclusion_witness :
    (∀ c ∈ "nonecolor".data, plainValueChar c = true) ∧
    ciLeads "none".data "nonecolor".data = true ∧
    convertToCurrentColor ("fill=\"" ++ "nonecolor" ++ "\"") =
      "fill=\"" ++ "nonecolor" ++ "\"" := by
  have h := c10_prefix_exclusion "nonecolor" (by decide) (Or.inl (by decide))
  exact ⟨by decide, by decide, h.1⟩

theorem injectAll_foldl_map (cache : List (String × String)) :
    ∀ (keys : List String) (nodes : List DomNode),
      injectAllIcons keys cache nodes =
        nodes.map (fun n => keys.foldl (fun n' k => injectNodeStep cache k n') n) := by
  intro keys
  induction keys with
  | nil =>
    intro nodes
    simp [injectAllIcons]
  | cons k ks ih =>
    intro nodes
    unfold injectAllIcons at ih ⊢
    rw [List.foldl_cons, ih (nodes.map (injectNodeStep cache k)), List.map_map]
    simp only [List.foldl_cons]
    rfl

theorem injectNodeStep_other (cache : List (String × String)) (n : DomNode)
    (k : String) (h : n.dataIcon ≠ some k) : injectNodeStep cache k n = n := by
  unfold injectNodeStep
  by_cases ht : k = "toggle"
  · rw [if_pos ht]
  · rw [if_neg ht]
    by_cases hs : (lookupKey cache k).getD "" = ""
    · rw [if_pos hs]
    · rw [if_neg hs, if_neg h]

theorem nodeFold_unmatched (cache : List (String × String)) (n : DomNode) :
    ∀ (keys : List String), (∀ k ∈ keys, n.dataIcon ≠ some k) →
      keys.foldl (fun n' k => injectNodeStep cache k n') n = n := by
  intro keys
  induction keys with
  | nil => intro _; rfl
  | cons k ks ih =>
    intro h
    rw [List.foldl_cons, injectNodeStep_other cache n k (h k (by simp))]
    exact ih (fun k' hk' => h k' (by simp [hk']))

theorem injectNodeStep_stable (cache : List (String × String)) (key svg : String)
    (hkt : key ≠ "toggle") (hl : lookupKey cache key = some svg) (hsvg : svg ≠ "")
    (n : DomNode) (hn : n.dataIcon = some key) (k : String) :
    injectNodeStep cache k
      (if n.insideToggle ∧ n.pressedClass then n
       else { n with content := convertToCurrentColor svg }) =
      (if n.insideToggle ∧ n.pressedClass then n
       else { n with content := convertToCurrentColor svg }) := by
  by_cases hp : n.insideToggle ∧ n.pressedClass
  · rw [if_pos hp]
    by_cases hd : n.dataIcon = some k
    · unfold injectNodeStep
      by_cases ht : k = "toggle"
      · rw [if_pos ht]
      · rw [if_neg ht]
        by_cases hs : (lookupKey cache k).getD "" = ""
        · rw [if_pos hs]
        · rw [if_neg hs, if_pos hd, if_pos hp]
    · exact injectNodeStep_other cache n k hd
  · rw [if_neg hp]
    by_cases hkk : k = key
    · subst hkk
      have hget : (lookupKey cache k).getD "" = svg := by
        rw [hl]
        rfl
      unfold injectNodeStep
      rw [if_neg hkt, hget]
      rw [if_neg hsvg]
      have hd : ({ n with content := convertToCurrentColor svg } : DomNode).dataIcon =
          some k := by
        simpa using hn
      rw [if_pos hd]
      have hp2 : ¬(({ n with content := convertToCurrentColor svg } : DomNode).insideToggle ∧
          ({ n with content := convertToCurrentColor svg } : DomNode).pressedClass) := by
        simpa using hp
      rw [if_neg hp2]
    · apply injectNodeStep_other
      have hdi : ({ n with content := convertToCurrentColor svg } : DomNode).dataIcon =
          some key := by
        simpa using hn
      rw [hdi]
      intro hc
      exact hkk (Option.some.inj hc).symm

theorem nodeFold_stable (cache : List (String × String)) (key svg : String)
    (hkt : key ≠ "toggle") (hl : lookupKey cache key = some svg) (hsvg : svg ≠ "")
    (n : DomNode) (hn : n.dataIcon = some key) :
    ∀ (keys : List String),
      keys.foldl (fun n' k => injectNodeStep cache k n')
        (if n.insideToggle ∧ n.pressedClass then n
         else { n with content := convertToCurrentColor svg }) =
        (if n.insideToggle ∧ n.pressedClass then n
         else { n with content := convertToCurrentColor svg }) := by
  intro keys
  induction keys with
  | nil => rfl
  | cons k ks ih =>
    rw [List.foldl_cons, injectNodeStep_stable cache key svg hkt hl hsvg n hn k]
    exact ih

theorem injectNodeStep_self (cache : List (String × String)) (key svg : String)
    (hkt : key ≠ "toggle") (hl : lookupKey cache key = some svg) (hsvg : svg ≠ "")
    (n : DomNode) (hn : n.dataIcon = some key) :
    injectNodeStep cache key n =
      (if n.insideToggle ∧ n.pressedClass then n
       else { n with content := convertToCurrentColor svg }) := by
  have hget : (lookupKey cache key).getD "" = svg := by
    rw [hl]
    rfl
  unfold injectNodeStep
  rw [if_neg hkt, hget, if_neg hsvg, if_pos hn]

theorem nodeFold_matched (cache : List (String × String)) (key svg : String)
    (hkt : key ≠ "toggle") (hl : lookupKey cache key = some svg) (hsvg : svg ≠ "")
    (n : DomNode) (hn : n.dataIcon = some key) :
    ∀ (keys : List String), key ∈ keys →
      keys.foldl (fun n' k => injectNodeStep cache k n') n =
        (if n.insideToggle ∧ n.pressedClass then n
         else { n with content := convertToCurrentColor svg }) := by
  intro keys
  induction keys with
  | nil => intro h; exact absurd h (by simp)
  | cons k ks ih =>
    intro hmem
    by_cases hkk : k = key
    · subst hkk
      rw [List.foldl_cons, injectNodeStep_self cache k svg hkt hl hsvg n hn]
      exact nodeFold_stable cache k svg hkt hl hsvg n hn ks
    · have hks : key ∈ ks := by
        rcases List.mem_cons.mp hmem with h | h
        · exact absurd h.symm hkk
        · exact h
      have hd : n.dataIcon ≠ some k := by
        rw [hn]
        intro hc
        exact hkk (Option.some.inj hc).symm
      rw [List.foldl_cons, injectNodeStep_other cache n k hd]
      exact ih hks

/-- C9 counterexample: with the cache holding the empty string for `add`
(the value a doubly-failed load stores), `injectAllIcons` leaves the
matching node's content untouched (`"old"`) instead of setting it to the
normalized cached markup (the empty string), because the `!svgMarkup`
falsiness test skips empty entries. -/
theorem c9_inject_cex :
    injectAllIcons ["add"] [("add", "")] [c9Node] = [c9Node] ∧
    c9Node.content = "old" ∧ convertToCurrentColor "" = "" ∧
    ("old" : String) ≠ "" := by
  refine ⟨rfl, rfl, ?_, by decide⟩
  unfold convertToCurrentColor convertLC
  rw [show ("".data : List Char) = [] from rfl, replaceAttrScan_nil,
    replaceAttrScan_nil, replaceAttrScan_nil, replaceAttrScan_nil,
    replaceStyleScan_nil, replaceStyleScan_nil]

/-- C9 as amended: for each catalog entry except the excluded `toggle`
identifier, *whose cached markup is nonempty*, `injectAllIcons` sets the
color-normalized cached markup as the content of every node matching the
entry's selector, skipping any node inside a toggle that itself carries
the `pressed` class; entries with an empty or missing cache value are
skipped with a warning, leaving their targets untouched, and nodes
matching no processed entry are unchanged (a selector matching zero nodes
only logs — with no matching node in the list, nothing changes and no
error arises). -/
theorem c9_inject_nonempty (keys : List String) (cache : List (String × String))
    (nodes : List DomNode) (key svg : String) (hk : key ∈ keys)
    (hkt : key ≠ "toggle") (hl : lookupKey cache key = some svg)
    (hsvg : svg ≠ "") :
    List.Forall₂ (fun n n' =>
      (n.dataIcon = some key →
        n' = (if n.insideToggle ∧ n.pressedClass then n
              else { n with content := convertToCurrentColor svg })) ∧
      ((∀ k ∈ keys, n.dataIcon ≠ some k) → n' = n))
      nodes (injectAllIcons keys cache nodes) := by
  rw [injectAll_foldl_map cache keys nodes]
  induction nodes with
  | nil => exact List.Forall₂.nil
  | cons n ns ih =>
    rw [List.map_cons]
    refine List.Forall₂.cons ⟨?_, ?_⟩ ih
    · intro hn
      exact nodeFold_matched cache key svg hkt hl hsvg n hn keys hk
    · intro hun
      exact nodeFold_unmatched cache n keys hun

theorem c9_inject_nonempty_witness :
    "add" ∈ ["add", "toggle"] ∧
    lookupKey [("add", "<svg/>")] "add" = some "<svg/>" ∧
    List.Forall₂ (fun n n' =>
      (n.dataIcon = some "add" →
        n' = (if n.insideToggle ∧ n.pressedClass then n
              else { n with content := convertToCurrentColor "<svg/>" })) ∧
      ((∀ k ∈ ["add", "toggle"], n.dataIcon ≠ some k) → n' = n))
      [c9Node] (injectAllIcons ["add", "toggle"] [("add", "<svg/>")] [c9Node]) := by
  refine ⟨by decide, by decide, ?_⟩
  exact c9_inject_nonempty ["add", "toggle"] [("add", "<svg/>")] [c9Node]
    "add" "<svg/>" (by decide) (by decide) (by decide) (by decide)

/-- C3 counterexample: a pass over two labelled buttons where the first
button's computed text color is `transparent` ends with the thrown parse
error and leaves *every* label unchanged — including the second button's,
which the claim requires to be updated: `updateButtonLabels` has no
try/catch, so the `ColorParseFailure` aborts the whole label-update
pass. -/
theorem c3_parse_failure_cex :
    updateButtonLabels c3Buttons =
      (c3Buttons, some "유효하지 않은 색상 값입니다") := by
  rfl

/-- C3 as amended: a `ColorParseFailure` raised while computing one
button's contrast aborts the rest of the label-update pass, not just that
button's computation: buttons before the failing one (in document order)
get their updated labels, while the failing button and every button after
it keep their previous labels, and the pass ends with the exception. -/
theorem c3_parse_failure_aborts_pass (pre post : List CButton) (b : CButton)
    (e : String) (hpre : ∀ x ∈ pre, ∃ y, updateOneLabel x = Except.ok y)
    (hb : updateOneLabel b = Except.error e) :
    ∃ pre', List.Forall₂ (fun x y => updateOneLabel x = Except.ok y) pre pre' ∧
      updateButtonLabels (pre ++ b :: post) = (pre' ++ b :: post, some e) := by
  induction pre with
  | nil =>
    refine ⟨[], List.Forall₂.nil, ?_⟩
    simp [updateButtonLabels, hb]
  | cons x xs ih =>
    obtain ⟨y, hy⟩ := hpre x (by simp)
    obtain ⟨pre', hf, heq⟩ := ih (fun z hz => hpre z (by simp [hz]))
    refine ⟨y :: pre', List.Forall₂.cons hy hf, ?_⟩
    rw [List.cons_append]
    simp [updateButtonLabels, hy, heq]

theorem c3_parse_failure_aborts_pass_witness :
    updateOneLabel ⟨"transparent", "rgb(0, 0, 0)", some (LabelContent.raw "A")⟩ =
      Except.error "유효하지 않은 색상 값입니다" ∧
    (∃ pre', List.Forall₂ (fun x y => updateOneLabel x = Except.ok y) [] pre' ∧
      updateButtonLabels ([] ++ ⟨"transparent", "rgb(0, 0, 0)",
          some (LabelContent.raw "A")⟩ ::
        [(⟨"rgb(255, 255, 255)", "rgb(0, 0, 0)",
          some (LabelContent.raw "B")⟩ : CButton)]) =
      (pre' ++ ⟨"transparent", "rgb(0, 0, 0)", some (LabelContent.raw "A")⟩ ::
        [(⟨"rgb(255, 255, 255)", "rgb(0, 0, 0)",
          some (LabelContent.raw "B")⟩ : CButton)],
        some "유효하지 않은 색상 값입니다")) := by
  have hb : updateOneLabel ⟨"transparent", "rgb(0, 0, 0)",
      some (LabelContent.raw "A")⟩ = Except.error "유효하지 않은 색상 값입니다" := by
    rfl
  exact ⟨hb, c3_parse_failure_aborts_pass []
    [⟨"rgb(255, 255, 255)", "rgb(0, 0, 0)", some (LabelContent.raw "B")⟩] _ _
    (fun x hx => absurd hx (List.not_mem_nil x)) hb⟩
